import Mathlib

/-!
# BoxFort execution context (`src/context.c`)

A shallow embedding of the context store and of the prepare / inherit crossing
protocol, followed by the properties proved about them.

Conventions of the embedding.

* A byte is a natural number; a `const char *` argument or an array of `char`
  is the list of the bytes found from that address on, the end of the list
  standing for a terminating NUL.
* The memory of a process is a function from addresses to bytes.  The arena is
  kept apart from it: the address normalizer only resolves addresses that lie
  inside a loaded module, so a Static target never lies inside the arena
  mapping.
* A size is a natural number.  The allocation request of
  `bxf_context_addstatic`, whose `size` argument is a free number, is computed
  as the code computes it, in `size_t` (modulo `SIZE_MAX + 1`), and the writes
  that follow are checked against the chunk obtained: one that falls outside is
  recorded in the field `overrun` of the arena.  The requests of
  `bxf_context_addobject` and `bxf_context_addarena` are sums of a header size
  and of the lengths of objects that lie in memory.
* A pointer into the arena names the chunk it points into and the place inside
  the element (`Ptr`); no byte layout is given to the fixed header fields.
* Functions of `arena.c`, of the address normalizer and of the C library whose
  code is not part of `context.c` are either fields of `Platform` (oracles the
  theorems quantify over) or small models taken from the specification.
-/

namespace BoxFort

/-! ## C library -/

/-- The errno value `EINVAL`. -/
def EINVAL : Int := 22

/-- The errno value `ENOMEM`. -/
def ENOMEM : Int := 12

/-- The C function `strlen`: the number of bytes before the first NUL. -/
def strlen : List Nat → Nat
  | [] => 0
  | c :: cs => if c = 0 then 0 else strlen cs + 1

/-- The C function `strcmp`, comparing the two strings byte by byte up to and
including the first NUL. -/
def strcmp : List Nat → List Nat → Int
  | [], [] => 0
  | [], b :: _ => -(b : Int)
  | a :: _, [] => (a : Int)
  | a :: as, b :: bs =>
    if a ≠ b then (a : Int) - (b : Int) else if a = 0 then 0 else strcmp as bs

/-- The characters of a C string: the bytes before its terminator. -/
def cstr (s : List Nat) : List Nat := s.take (strlen s)

/-- The effect of `memcpy(&dst[off], src, src.length)` on the array `dst`. -/
def memcpy_at (dst : List Nat) (off : Nat) (src : List Nat) : List Nat :=
  dst.take off ++ src ++ dst.drop (off + src.length)

/-- The memory of a process: the byte found at each address. -/
abbrev Mem := Nat → Nat

/-- The `n` bytes of memory `m` that start at address `addr`. -/
def mem_read (m : Mem) (addr n : Nat) : List Nat :=
  (List.range n).map (fun i => m (addr + i))

/-- The effect of `memcpy(addr, bytes, bytes.length)` on the memory `m`. -/
def mem_write (m : Mem) (addr : Nat) (bytes : List Nat) : Mem :=
  fun a => if addr ≤ a ∧ a < addr + bytes.length then bytes.getD (a - addr) 0 else m a

/-- The object representation of an `int`: four bytes, least significant
first, two's complement. -/
def int_bytes (v : Int) : List Nat :=
  let u := (v % 4294967296).toNat
  [u % 256, u / 256 % 256, u / 65536 % 256, u / 16777216 % 256]

/-- The `int` whose object representation is the given four bytes. -/
def int_of_bytes : List Nat → Option Int
  | [b0, b1, b2, b3] =>
    let u := b0 % 256 + 256 * (b1 % 256) + 65536 * (b2 % 256) + 16777216 * (b3 % 256)
    some (if u < 2147483648 then (u : Int) else (u : Int) - 4294967296)
  | _ => none

/-! ## Data model -/

/-- The discriminator `enum bxfi_ctx_tag`, first field of every element. -/
inductive bxfi_ctx_tag
  | BXFI_TAG_STATIC
  | BXFI_TAG_ARENA
  | BXFI_TAG_OBJECT
  deriving DecidableEq, Repr

/-- Modelled from the spec: the declaration of `enum bxfi_ctx_tag` (context.h)
is not among the sources; the discriminator values are "stable integers", taken
here in the order Static, Arena, Object. -/
def bxfi_ctx_tag.value : bxfi_ctx_tag → Int
  | .BXFI_TAG_STATIC => 0
  | .BXFI_TAG_ARENA => 1
  | .BXFI_TAG_OBJECT => 2

/-- An address descriptor `struct bxfi_addr`: module-relative offset and the
module name (a C string). -/
structure bxfi_addr where
  addr : Nat
  soname : List Nat
  deriving DecidableEq, Repr

/-- A tagged element as it lies in a chunk of the arena: the fixed header
fields of `struct bxfi_ctx_static`, `struct bxfi_ctx_arena` and
`struct bxfi_ctx_object`, and for the first and the last the flexible array
member `data` holding all trailing bytes of the chunk. -/
inductive Elt
  | bxfi_ctx_static (addr : Nat) (size : Nat) (data : List Nat)
  | bxfi_ctx_arena (flags : Nat) (handle : Nat) (base : Nat)
  | bxfi_ctx_object (namesz : Nat) (data : List Nat)
  deriving DecidableEq, Repr

/-- The field `tag` of an element. -/
def Elt.tag : Elt → bxfi_ctx_tag
  | .bxfi_ctx_static _ _ _ => .BXFI_TAG_STATIC
  | .bxfi_ctx_arena _ _ _ => .BXFI_TAG_ARENA
  | .bxfi_ctx_object _ _ => .BXFI_TAG_OBJECT

/-- Modelled from the spec: the struct declarations (context.h) are not among
the sources; `sizeof (struct bxfi_ctx_static)` on an LP64 platform (tag,
address, size). -/
def sizeof_static : Nat := 24

/-- Modelled from the spec: `sizeof (struct bxfi_ctx_arena)` on an LP64
platform (tag, flags, handle, back-reference). -/
def sizeof_arena : Nat := 24

/-- Modelled from the spec: `sizeof (struct bxfi_ctx_object)` on an LP64
platform (tag, name length). -/
def sizeof_object : Nat := 16

/-- The size of the chunk that holds an element: what the iteration passes to
its visitor as `size`. -/
def Elt.chunk_size : Elt → Nat
  | .bxfi_ctx_static _ _ data => sizeof_static + data.length
  | .bxfi_ctx_arena _ _ _ => sizeof_arena
  | .bxfi_ctx_object _ data => sizeof_object + data.length

/-- Modelled from the spec: the flag `BXF_ARENA_IDENTITY` of boxfort.h, which is
not among the sources; a single bit of the arena flags. -/
def BXF_ARENA_IDENTITY : Nat := 2

/-- An arena (`struct bxf_arena_s`) as this file needs it: the address of the
arena object (the value of the `bxf_arena` pointer, never 0), its transferable
handle, its flags, the number of bytes the allocator can still hand out, and
its allocated chunks in allocation order. The field `overrun` tells that a
write meant for a chunk has fallen outside that chunk: from then on the
behaviour of the program is undefined, and the chunks are shown as they are
addressed through their element pointers. -/
structure bxf_arena_s where
  self : Nat
  handle : Nat
  flags : Nat
  avail : Nat
  chunks : List Elt
  overrun : Bool := false
  deriving DecidableEq, Repr

/-- The context `struct bxf_context`: it owns one arena. -/
structure bxf_context where
  arena : bxf_arena_s
  deriving DecidableEq, Repr

/-- A pointer into the arena of a context: null, the address of the element in
chunk `p` (that of its first field, the discriminator), or the address of
`data[i]` of that element. -/
inductive Ptr
  | null
  | elt (p : Nat)
  | data (p : Nat) (i : Nat)
  deriving DecidableEq, Repr

/-- The functions that `context.c` calls and whose code lies elsewhere.
`bxfi_normalize_addr ptr` gives the return code and the descriptor written;
`bxfi_denormalize_addr` gives the address, 0 standing for `NULL`;
`bxfi_arena_prepare handle` gives its return code;
`bxfi_arena_inherit handle flags base` gives its return code and the arena it
bound; `fileno` and `fdopen` are the stream bridge (a stream is the value of
its `FILE *`). -/
structure Platform where
  bxfi_normalize_addr : Nat → Int × bxfi_addr
  bxfi_denormalize_addr : bxfi_addr → Nat
  bxfi_arena_prepare : Nat → Int
  bxfi_arena_inherit : Nat → Nat → Nat → Int × bxf_arena_s
  fileno : Nat → Int
  fdopen : Int → Nat

/-! ## Arena capability -/

/-- Modelled from the spec: `bxf_arena_alloc` (arena.c) is not among the
sources; "allocate(Arena,size)→offset|error". The request fails with `-ENOMEM`
when it exceeds what the arena can still hand out; otherwise the result
designates the chunk that the caller is about to fill, the next one in
allocation order. -/
def bxf_arena_alloc (a : bxf_arena_s) (size : Nat) : Int × bxf_arena_s :=
  if size ≤ a.avail then ((a.chunks.length : Int), { a with avail := a.avail - size })
  else (-ENOMEM, a)

/-- The writes through `elt = bxf_arena_ptr(ctx->arena, p)` that fill the chunk
just allocated: it becomes the last chunk in allocation order. -/
def arena_fill (a : bxf_arena_s) (e : Elt) : bxf_arena_s :=
  { a with chunks := a.chunks ++ [e] }

/-- The loop of `bxf_arena_iter` over the chunks from position `p` on. -/
def iter_chunks {σ : Type} (fn : Nat → Elt → Nat → σ → Int × Elt × σ) :
    Nat → List Elt → σ → Int × List Elt × σ
  | _, [], user => (0, [], user)
  | p, e :: es, user =>
    match fn p e e.chunk_size user with
    | (rc, e1, user1) =>
      if rc ≠ 0 then (rc, e1 :: es, user1)
      else
        match iter_chunks fn (p + 1) es user1 with
        | (rc2, es2, user2) => (rc2, e1 :: es2, user2)

/-- Modelled from the spec: `bxf_arena_iter` (arena.c) is not among the
sources; "iterate(Arena, visit(ptr,size)→stop)", "in allocation order". The
visitor receives the pointer to the chunk, the element found there, the chunk
size and the user data, and gives back its return code, the element as it left
it and the user data; the iteration stops at the first non-zero return code
and returns it, and returns 0 when every chunk was visited. -/
def bxf_arena_iter {σ : Type} (arena : bxf_arena_s)
    (fn : Nat → Elt → Nat → σ → Int × Elt × σ) (user : σ) : Int × bxf_arena_s × σ :=
  match iter_chunks fn 0 arena.chunks user with
  | (rc, chunks, user1) => (rc, { arena with chunks := chunks }, user1)

/-! ## Context store -/

/-- The largest value of `size_t` on an LP64 platform. -/
def SIZE_MAX : Nat := 18446744073709551615

/-- The allocation request of `bxf_context_addstatic`,
`sizeof (*elt) + size + strlen(addr.soname) + 1`, as the code computes it: in
`size_t`, hence modulo `SIZE_MAX + 1`. -/
def static_request (size : Nat) (soname : List Nat) : Nat :=
  (sizeof_static + size + strlen soname + 1) % (SIZE_MAX + 1)

/-- A copy of `src` to `&dst[off]` that must stay inside the array `dst`: the
array after the copy, or `none` when the copy would run past its end. -/
def store_within (dst : List Nat) (off : Nat) (src : List Nat) : Option (List Nat) :=
  if off + src.length ≤ dst.length then some (memcpy_at dst off src) else none

/-- The function `bxf_context_addstatic`. The chunk obtained has
`static_request size addr.soname` bytes: the header and, after it, the bytes
of `data`, zero as the allocator delivered them. The header fields are
written, the payload bytes `data[0..size)` are left alone, and `strcpy` copies
the module name to `data[size]`. When the header or that copy does not lie
inside the chunk the write has fallen outside: `overrun` is set and the
element is shown as it is addressed through `elt`. -/
def bxf_context_addstatic (P : Platform) (ctx : bxf_context) (ptr : Nat) (size : Nat) :
    Int × bxf_context :=
  match P.bxfi_normalize_addr ptr with
  | (rc, addr) =>
    if rc < 0 then (rc, ctx)
    else
      match bxf_arena_alloc ctx.arena (static_request size addr.soname) with
      | (p, arena) =>
        if p < 0 then (p, { ctx with arena := arena })
        else
          match (if sizeof_static ≤ static_request size addr.soname then
              store_within
                (List.replicate (static_request size addr.soname - sizeof_static) 0) size
                (cstr addr.soname ++ [0])
            else none) with
          | some data =>
            (0, { ctx with arena := arena_fill arena (.bxfi_ctx_static addr.addr size data) })
          | none =>
            let data := memcpy_at (List.replicate (size + strlen addr.soname + 1) 0) size
              (cstr addr.soname ++ [0])
            (0, { ctx with arena :=
              { arena_fill arena (.bxfi_ctx_static addr.addr size data) with overrun := true } })

/-- The function `bxf_context_addarena`. -/
def bxf_context_addarena (ctx : bxf_context) (arena : bxf_arena_s) : Int × bxf_context :=
  match bxf_arena_alloc ctx.arena sizeof_arena with
  | (p, a) =>
    if p < 0 then (p, { ctx with arena := a })
    else
      let base := if arena.flags &&& BXF_ARENA_IDENTITY ≠ 0 then arena.self else 0
      (0, { ctx with arena := arena_fill a (.bxfi_ctx_arena arena.flags arena.handle base) })

/-- The function `bxf_context_addobject`; the argument `bytes` is the object
that `ptr` points to, `size` being its length, and `name` a string that lies
in memory: the request is the size of a chunk that holds both, a sum that
stays far below `SIZE_MAX`. -/
def bxf_context_addobject (ctx : bxf_context) (name : List Nat) (bytes : List Nat) :
    Int × bxf_context :=
  let size := bytes.length
  let len := strlen name + 1
  match bxf_arena_alloc ctx.arena (sizeof_object + len + size) with
  | (p, a) =>
    if p < 0 then (p, { ctx with arena := a })
    else
      let data := memcpy_at (memcpy_at (List.replicate (len + size) 0) 0 (cstr name ++ [0]))
        len bytes
      (0, { ctx with arena := arena_fill a (.bxfi_ctx_object len data) })

/-- The lookup state `struct bxfi_find_ctx`. -/
structure bxfi_find_ctx where
  name : List Nat
  result : Ptr
  deriving DecidableEq, Repr

/-- The visitor `find_obj`. -/
def find_obj (ptr : Nat) (e : Elt) (_size : Nat) (ctx : bxfi_find_ctx) :
    Int × Elt × bxfi_find_ctx :=
  if e.tag ≠ .BXFI_TAG_OBJECT then (0, e, ctx)
  else
    match e with
    | .bxfi_ctx_object _ data =>
      if strcmp data ctx.name = 0 then (1, e, { ctx with result := Ptr.elt ptr })
      else (0, e, ctx)
    | _ => (0, e, ctx)

/-- The function `bxf_context_getobject`: the return code and what was stored
through the caller's `ptr` (`none` when nothing was stored). -/
def bxf_context_getobject (ctx : bxf_context) (name : List Nat) : Int × Option Ptr :=
  let fctx : bxfi_find_ctx := { name := name, result := Ptr.null }
  match bxf_arena_iter ctx.arena find_obj fctx with
  | (found, _, fctx1) =>
    if found ≠ 0 then (found, some fctx1.result) else (found, none)

/-- The function `bxf_context_addfile` (POSIX branch). -/
def bxf_context_addfile (P : Platform) (ctx : bxf_context) (name : List Nat) (file : Nat) :
    Int × bxf_context :=
  let fd := P.fileno file
  bxf_context_addobject ctx name (int_bytes fd)

/-- The bytes found in the arena at a pointer into the `data` of an element;
`none` when the pointer does not designate `size` bytes of `data`. -/
def load_bytes (ctx : bxf_context) (ptr : Ptr) (size : Nat) : Option (List Nat) :=
  match ptr with
  | .data p i =>
    match ctx.arena.chunks.get? p with
    | some (.bxfi_ctx_static _ _ data) =>
      if i + size ≤ data.length then some ((data.drop i).take size) else none
    | some (.bxfi_ctx_object _ data) =>
      if i + size ≤ data.length then some ((data.drop i).take size) else none
    | _ => none
  | _ => none

/-- The value of `*fd` for an `int *fd` into the arena: the discriminator when
`fd` is the address of an element, the `int` stored in four bytes of `data`
when it points there, nothing otherwise. -/
def load_int (ctx : bxf_context) (fd : Ptr) : Option Int :=
  match fd with
  | .null => none
  | .elt p => (ctx.arena.chunks.get? p).map (fun e => e.tag.value)
  | .data p i => (load_bytes ctx (.data p i) 4).bind int_of_bytes

/-- What a call of `bxf_context_getfile` does: its behaviour is undefined
because it read through a pointer that was never assigned, or it returned `rc`
having stored `file` through the caller's pointer (`none`: nothing stored). -/
inductive getfile_result
  | undefined
  | returned (rc : Int) (file : Option Nat)
  deriving DecidableEq, Repr

/-- The function `bxf_context_getfile` (POSIX branch). The local `int *fd` is
uninitialised; `bxf_context_getobject` assigns it only when it stores its
result. -/
def bxf_context_getfile (P : Platform) (ctx : bxf_context) (name : List Nat) :
    getfile_result :=
  match bxf_context_getobject ctx name with
  | (rc, fd) =>
    if rc = 0 then
      match fd with
      | none => .undefined
      | some p =>
        match load_int ctx p with
        | none => .undefined
        | some v => .returned rc (some (P.fdopen v))
    else .returned rc none

/-- The function `bxfi_context_gethandle`. -/
def bxfi_context_gethandle (ctx : bxf_context) : Nat := ctx.arena.handle

/-! ## Crossing protocol -/

/-- The visitor `prepare_elt`, run by the host while its memory is `m`. The
user data of the model is the list of the handles passed to
`bxfi_arena_prepare` so far, in call order; the visitor drops the return code
of that call. -/
def prepare_elt (P : Platform) (m : Mem) (_ptr : Nat) (e : Elt) (_size : Nat)
    (primed : List Nat) : Int × Elt × List Nat :=
  match e with
  | .bxfi_ctx_static addr size data =>
    let a : bxfi_addr := { addr := addr, soname := data.drop size }
    let target := P.bxfi_denormalize_addr a
    if target = 0 then (-EINVAL, e, primed)
    else (0, .bxfi_ctx_static addr size (memcpy_at data 0 (mem_read m target size)), primed)
  | .bxfi_ctx_arena _ handle _ => (0, e, primed ++ [handle])
  | .bxfi_ctx_object _ _ => (0, e, primed)

/-- The function `bxfi_context_prepare`: the return code, the context as the
call left it, and the handles passed to `bxfi_arena_prepare` in call order. -/
def bxfi_context_prepare (P : Platform) (m : Mem) (ctx : bxf_context) :
    Int × bxf_context × List Nat :=
  let rc := P.bxfi_arena_prepare ctx.arena.handle
  if rc < 0 then (rc, ctx, [ctx.arena.handle])
  else
    match bxf_arena_iter ctx.arena (prepare_elt P m) [ctx.arena.handle] with
    | (rc1, arena, primed) => (rc1, { ctx with arena := arena }, primed)

/-- The state of a participant that `inherit` acts on: its memory, and the
calls of `bxfi_arena_inherit` made so far as (handle, flags, arena pointer
passed in), in call order. -/
structure Participant where
  mem : Mem
  bound : List (Nat × Nat × Nat)

/-- The visitor `inherit_elt`; it drops the return code of
`bxfi_arena_inherit` and the arena that call binds. -/
def inherit_elt (Q : Platform) (_ptr : Nat) (e : Elt) (_size : Nat) (w : Participant) :
    Int × Elt × Participant :=
  match e with
  | .bxfi_ctx_static addr size data =>
    let a : bxfi_addr := { addr := addr, soname := data.drop size }
    let target := Q.bxfi_denormalize_addr a
    if target = 0 then (-EINVAL, e, w)
    else (0, e, { w with mem := mem_write w.mem target (data.take size) })
  | .bxfi_ctx_arena flags handle base => (0, e, { w with bound := w.bound ++ [(handle, flags, base)] })
  | .bxfi_ctx_object _ _ => (0, e, w)

/-- The function `bxfi_context_inherit`: the return code, the arena bound from
the handle as the call left it, and the state of the participant. -/
def bxfi_context_inherit (Q : Platform) (hndl : Nat) (w : Participant) :
    Int × bxf_arena_s × Participant :=
  match Q.bxfi_arena_inherit hndl 0 0 with
  | (rc, arena) =>
    let w1 : Participant := { w with bound := w.bound ++ [(hndl, 0, 0)] }
    if rc < 0 then (rc, arena, w1)
    else bxf_arena_iter arena (inherit_elt Q) w1

/-! ## Building a context -/

/-- One call of the building interface of the context store. -/
inductive Call
  | addstatic (ptr : Nat) (size : Nat)
  | addarena (arena : bxf_arena_s)
  | addobject (name : List Nat) (bytes : List Nat)
  | addfile (name : List Nat) (file : Nat)
  deriving DecidableEq, Repr

/-- What a call does to a context: its return code and the context after. -/
def Call.run (P : Platform) (ctx : bxf_context) : Call → Int × bxf_context
  | .addstatic ptr size => bxf_context_addstatic P ctx ptr size
  | .addarena arena => bxf_context_addarena ctx arena
  | .addobject name bytes => bxf_context_addobject ctx name bytes
  | .addfile name file => bxf_context_addfile P ctx name file

/-- The context reached from `ctx` by a sequence of calls that all succeed
(return 0); `none` when one of them fails. -/
def build (P : Platform) : List Call → bxf_context → Option bxf_context
  | [], ctx => some ctx
  | c :: cs, ctx =>
    match c.run P ctx with
    | (rc, ctx1) => if rc = 0 then build P cs ctx1 else none

/-- The name under which a call stores an Object element, if it stores one. -/
def Call.object_name : Call → Option (List Nat)
  | .addobject name _ => some (cstr name)
  | .addfile name _ => some (cstr name)
  | _ => none

/-- The element a successful call appends. -/
def Call.elt (P : Platform) : Call → Elt
  | .addstatic ptr size =>
    let addr := (P.bxfi_normalize_addr ptr).2
    .bxfi_ctx_static addr.addr size (List.replicate size 0 ++ (cstr addr.soname ++ [0]))
  | .addarena arena =>
    .bxfi_ctx_arena arena.flags arena.handle
      (if arena.flags &&& BXF_ARENA_IDENTITY ≠ 0 then arena.self else 0)
  | .addobject name bytes => .bxfi_ctx_object (strlen name + 1) (cstr name ++ [0] ++ bytes)
  | .addfile name file =>
    .bxfi_ctx_object (strlen name + 1) (cstr name ++ [0] ++ int_bytes (P.fileno file))

/-- The address a Static element denormalizes to on platform `Q` (0 when its
module is not loaded); `none` for the other kinds. -/
def Elt.target (Q : Platform) : Elt → Option Nat
  | .bxfi_ctx_static addr size data =>
    some (Q.bxfi_denormalize_addr { addr := addr, soname := data.drop size })
  | _ => none

/-- The transplant of one element as the specification words it: a Static
element puts its `size` payload bytes at its target address, the other kinds
write nothing. -/
def transplant (Q : Platform) (m : Mem) : Elt → Mem
  | .bxfi_ctx_static addr size data =>
    mem_write m (Q.bxfi_denormalize_addr { addr := addr, soname := data.drop size })
      (data.take size)
  | _ => m

/-- The transplants of a list of elements, in iteration order. -/
def transplants (Q : Platform) : List Elt → Mem → Mem
  | [], m => m
  | e :: es, m => transplants Q es (transplant Q m e)

/-- The capture of one element as the specification words it: a Static
element receives in its payload the `size` live bytes found at its target
address, the other kinds are left alone. -/
def capture (P : Platform) (m : Mem) : Elt → Elt
  | .bxfi_ctx_static addr size data =>
    .bxfi_ctx_static addr size
      (mem_read m (P.bxfi_denormalize_addr { addr := addr, soname := data.drop size }) size
        ++ data.drop size)
  | e => e

/-- The handles of the Arena elements of a list, in order. -/
def nested_handles : List Elt → List Nat
  | [] => []
  | .bxfi_ctx_arena _ handle _ :: es => handle :: nested_handles es
  | _ :: es => nested_handles es

/-- The arguments `inherit_elt` passes to `bxfi_arena_inherit` for the Arena
elements of a list, in order. -/
def nested_binds : List Elt → List (Nat × Nat × Nat)
  | [] => []
  | .bxfi_ctx_arena flags handle base :: es => (handle, flags, base) :: nested_binds es
  | _ :: es => nested_binds es

/-- A Static element whose descriptor does not denormalize on platform `Q`
(its module is not loaded there). -/
def fails (Q : Platform) (e : Elt) : Bool := decide (e.target Q = some 0)

/-- The address `x` lies in the range that the transplant of element `e`
writes on platform `Q`: the target range of a Static element. -/
def covers (Q : Platform) (e : Elt) (x : Nat) : Prop :=
  match e with
  | .bxfi_ctx_static addr size data =>
    Q.bxfi_denormalize_addr { addr := addr, soname := data.drop size } ≤ x
      ∧ x < Q.bxfi_denormalize_addr { addr := addr, soname := data.drop size }
            + (data.take size).length
  | _ => False

/-- The elements that an iteration of `inherit_elt` (or of `prepare_elt`) on
platform `Q` goes through with success: those before the first Static element
whose descriptor does not denormalize, all of them when there is none. -/
def visited (Q : Platform) (es : List Elt) : List Elt :=
  es.takeWhile (fun e => !fails Q e)

/-- An Object element whose stored name is the C string `n`. -/
def is_named (n : List Nat) : Elt → Bool
  | .bxfi_ctx_object _ data => decide (cstr data = cstr n)
  | _ => false

/-- The discriminator and the fixed header fields that an element stores. -/
def Elt.fields : Elt → bxfi_ctx_tag × List Nat
  | .bxfi_ctx_static addr size _ => (.BXFI_TAG_STATIC, [addr, size])
  | .bxfi_ctx_arena flags handle base => (.BXFI_TAG_ARENA, [flags, handle, base])
  | .bxfi_ctx_object namesz _ => (.BXFI_TAG_OBJECT, [namesz])

/-- The trailing variable-length data of an element: what lies in its chunk
after the fixed header. -/
def Elt.trailing : Elt → List Nat
  | .bxfi_ctx_static _ _ data => data
  | .bxfi_ctx_arena _ _ _ => []
  | .bxfi_ctx_object _ data => data

/-- The offset, inside the trailing data, at which its second part starts,
as the stored fields give it: `size` for a Static element (the module name
follows the payload), `namesz` for an Object (the payload follows the
name). -/
def Elt.offset : Elt → Nat
  | .bxfi_ctx_static _ size _ => size
  | .bxfi_ctx_arena _ _ _ => 0
  | .bxfi_ctx_object namesz _ => namesz

/-- The lookup as the specification words it, on the list that tells for each
chunk from position `p` on whether it is an Object of the wanted name: the
first match is returned (found, with the address of that element), and
nothing when there is none. -/
def lookup_from (p : Nat) : List Bool → Int × Option Ptr
  | [] => (0, none)
  | true :: _ => (1, some (Ptr.elt p))
  | false :: bs => lookup_from (p + 1) bs

/-! ## Values used in the examples -/

/-- A freshly initialised context: an arena without chunks, with the flags
`bxf_context_init` asks for, able to hand out 64 KiB. -/
def fresh_context : bxf_context :=
  { arena := { self := 4096, handle := 3, flags := 5, avail := 65536, chunks := [] } }

/-- A process for the examples. Module "m" is loaded at address `base` and,
when `has_x` holds, module "x" at `base + 8192`, each 4096 bytes long;
`bxfi_arena_prepare` fails with `-EBADF` on handle 13 only;
`bxfi_arena_inherit` binds `arena`; stream `1000 + fd` wraps descriptor `fd`. -/
def example_platform (base : Nat) (has_x : Bool) (arena : bxf_arena_s) : Platform where
  bxfi_normalize_addr := fun ptr =>
    if base ≤ ptr ∧ ptr < base + 4096 then (0, { addr := ptr - base, soname := [109, 0] })
    else if has_x = true ∧ base + 8192 ≤ ptr ∧ ptr < base + 12288 then
      (0, { addr := ptr - (base + 8192), soname := [120, 0] })
    else (-EINVAL, { addr := 0, soname := [] })
  bxfi_denormalize_addr := fun a =>
    if cstr a.soname = [109] then base + a.addr
    else if has_x = true ∧ cstr a.soname = [120] then base + 8192 + a.addr
    else 0
  bxfi_arena_prepare := fun handle => if handle = 13 then -9 else 0
  bxfi_arena_inherit := fun _ _ _ => (0, arena)
  fileno := fun file => (file : Int) - 1000
  fdopen := fun fd => (fd + 1000).toNat

/-- A context for the examples: a Static element, an Arena element and two
Objects named "k" and "kkk". -/
def mixed_context : bxf_context :=
  { arena := { self := 4096, handle := 3, flags := 5, avail := 65442,
               chunks := [.bxfi_ctx_static 4 4 [0, 0, 0, 0, 109, 0],
                          .bxfi_ctx_object 2 [107, 0, 1],
                          .bxfi_ctx_arena 5 3 0,
                          .bxfi_ctx_object 4 [107, 107, 107, 0, 2]] } }

/-- An arena as a participant receives it: a captured Static element of module
"m", an Arena element, a Static element of module "x", and a further Static
element of module "m". -/
def transferred_arena : bxf_arena_s :=
  { self := 8192, handle := 3, flags := 5, avail := 0,
    chunks := [.bxfi_ctx_static 4 2 [9, 8, 109, 0],
               .bxfi_ctx_arena 0 13 0,
               .bxfi_ctx_static 0 1 [5, 120, 0],
               .bxfi_ctx_static 6 1 [7, 109, 0]] }

/-- A participant whose memory holds zero bytes and that has bound no arena. -/
def blank_participant : Participant := { mem := fun _ => 0, bound := [] }

/-- A host context for the examples: a Static element of module "m" (offset
4, two bytes), an Arena element with handle 11, a Static element of module
"x", an Arena element with handle 12 and a further Static element of module
"m" (offset 6, one byte); no payload captured yet. -/
def host_context : bxf_context :=
  { arena := { self := 4096, handle := 3, flags := 5, avail := 1000,
               chunks := [.bxfi_ctx_static 4 2 [0, 0, 109, 0],
                          .bxfi_ctx_arena 0 11 0,
                          .bxfi_ctx_static 0 1 [0, 120, 0],
                          .bxfi_ctx_arena 0 12 0,
                          .bxfi_ctx_static 6 1 [0, 109, 0]] } }

/-- A host memory for the examples: the bytes 42, 43, 44 at the addresses
4100, 4101, 4102 and the byte 1 everywhere else. -/
def host_mem : Mem := fun a => if a = 4100 then 42 else if a = 4101 then 43
  else if a = 4102 then 44 else 1

/-- A sub-arena for the examples, whose handle 13 cannot be primed by
`example_platform`. -/
def unprimable_arena : bxf_arena_s :=
  { self := 12288, handle := 13, flags := 1, avail := 0, chunks := [] }

/-- A host context for the examples whose two Static elements have
overlapping targets (offsets 4 and 5 of module "m", two bytes each), with an
Arena element and an Object between them. -/
def overlapping_context : bxf_context :=
  { arena := { self := 4096, handle := 3, flags := 5, avail := 1000,
               chunks := [.bxfi_ctx_static 4 2 [0, 0, 109, 0],
                          .bxfi_ctx_arena 0 11 0,
                          .bxfi_ctx_object 2 [107, 0, 1],
                          .bxfi_ctx_static 5 2 [0, 0, 109, 0]] } }

/-- The arena of `overlapping_context` once prepared in `host_mem`. -/
def prepared_arena : bxf_arena_s :=
  (bxfi_context_prepare (example_platform 4096 false fresh_context.arena) host_mem
    overlapping_context).2.1.arena

/-- A memory in which the `int` at address `at_addr` has the value `v`
(0 ≤ v < 256) and every other byte is 0. -/
def counter_mem (at_addr v : Nat) : Mem := fun a => if a = at_addr then v else 0

/-- The context after `bxf_context_addstatic(ctx, &counter, sizeof (int))` on a
fresh context, `counter` lying at offset 4 of module "m". -/
def counter_context : bxf_context :=
  { arena := { self := 4096, handle := 3, flags := 5, avail := 65506,
               chunks := [.bxfi_ctx_static 4 4 [0, 0, 0, 0, 109, 0]] } }

/-- The arena of `counter_context` once prepared while `counter` is 7. -/
def counter_arena : bxf_arena_s :=
  (bxfi_context_prepare (example_platform 4096 false fresh_context.arena) (counter_mem 4100 7)
    counter_context).2.1.arena

/-- A participant in which module "m" is loaded at 20480 and whose own
`counter`, at address 20484, still holds 42. -/
def stale_participant : Participant := { mem := counter_mem 20484 42, bound := [] }

/-- A context for the examples whose arena can hand out only 5 more bytes; it
holds one Object named "k" with the payload 1. -/
def full_context : bxf_context :=
  { arena := { self := 4096, handle := 3, flags := 5, avail := 5,
               chunks := [.bxfi_ctx_object 2 [107, 0, 1]] } }

/-- A sub-arena for the examples that is flagged identity (flags
`BXF_ARENA_RESIZE | BXF_ARENA_IDENTITY`): its arena object lies at address
12288 of the host and its handle is 14. -/
def identity_arena : bxf_arena_s :=
  { self := 12288, handle := 14, flags := 3, avail := 0, chunks := [] }

/-- A participant whose memory is `host_mem` and that has bound no arena. -/
def busy_participant : Participant := { mem := host_mem, bound := [] }

/-- An arena as a participant binds it at address 8192, holding the Arena
element that `bxf_context_addarena` recorded in the host for
`identity_arena`. -/
def identity_transfer : bxf_arena_s :=
  { self := 8192, handle := 3, flags := 5, avail := 0,
    chunks := [.bxfi_ctx_arena 3 14 12288] }

/-- The arena of `host_context` as a prepare in `host_mem` leaves it when
module "x" is not loaded (the prepare fails at position 2). -/
def half_prepared_arena : bxf_arena_s :=
  (bxfi_context_prepare (example_platform 4096 false fresh_context.arena) host_mem
    host_context).2.1.arena

/-- A process for the examples in which every address lies at offset `ptr` of
one module, named `name`, loaded at address 0 (address 0 itself excepted for
the way back). -/
def named_platform (name : List Nat) : Platform where
  bxfi_normalize_addr := fun ptr => (0, { addr := ptr, soname := name })
  bxfi_denormalize_addr := fun a => if cstr a.soname = cstr name then a.addr else 0
  bxfi_arena_prepare := fun _ => 0
  bxfi_arena_inherit := fun _ _ _ => (0, fresh_context.arena)
  fileno := fun file => (file : Int) - 1000
  fdopen := fun fd => (fd + 1000).toNat

/-- The context `host_context` with a backing arena whose handle 13 cannot be
primed by `example_platform`. -/
def unprimable_context : bxf_context :=
  { arena := { host_context.arena with handle := 13 } }

/-! ## Facts about C strings and copies -/

theorem strlen_le (s : List Nat) : strlen s ≤ s.length := by
  induction s with
  | nil => simp [strlen]
  | cons c cs ih =>
    by_cases h : c = 0
    · simp [strlen, h]
    · simp [strlen, h, ih]

theorem cstr_nil : cstr [] = [] := by
  simp [cstr, strlen]

theorem cstr_cons (c : Nat) (cs : List Nat) :
    cstr (c :: cs) = if c = 0 then [] else c :: cstr cs := by
  by_cases h : c = 0
  · simp [cstr, strlen, h]
  · simp [cstr, strlen, h]

theorem length_cstr (s : List Nat) : (cstr s).length = strlen s := by
  simp [cstr, strlen_le]

theorem cstr_terminated (s t : List Nat) : cstr (cstr s ++ 0 :: t) = cstr s := by
  induction s with
  | nil => simp [cstr_nil, cstr_cons]
  | cons c cs ih =>
    by_cases h : c = 0
    · simp [cstr_cons, h]
    · simp [cstr_cons, h, ih]

theorem strcmp_eq_zero_iff (a b : List Nat) : strcmp a b = 0 ↔ cstr a = cstr b := by
  induction a generalizing b with
  | nil =>
    cases b with
    | nil => simp [strcmp]
    | cons y ys =>
      by_cases hy : y = 0
      · simp [strcmp, cstr_nil, cstr_cons, hy]
      · simp [strcmp, cstr_nil, cstr_cons, hy]
  | cons x xs ih =>
    cases b with
    | nil =>
      by_cases hx : x = 0
      · simp [strcmp, cstr_nil, cstr_cons, hx]
      · simp [strcmp, cstr_nil, cstr_cons, hx]
    | cons y ys =>
      by_cases hxy : x = y
      · subst hxy
        by_cases hx : x = 0
        · simp [strcmp, cstr_cons, hx]
        · simp [strcmp, cstr_cons, hx, ih]
      · have hsub : (x : Int) - (y : Int) ≠ 0 := by omega
        by_cases hx : x = 0
        · have hy : y ≠ 0 := fun h => hxy (by omega)
          have hy2 : ¬ (0 = y) := fun h => hy h.symm
          subst hx
          simp [strcmp, cstr_cons, hy, hy2]
        · by_cases hy : y = 0
          · simp [strcmp, cstr_cons, hxy, hsub, hx, hy]
          · simp [strcmp, cstr_cons, hxy, hsub, hx, hy]

theorem memcpy_at_zero (dst src : List Nat) :
    memcpy_at dst 0 src = src ++ dst.drop src.length := by
  simp [memcpy_at]

theorem take_memcpy_at_zero (dst src : List Nat) :
    (memcpy_at dst 0 src).take src.length = src := by
  simp [memcpy_at]

theorem drop_memcpy_at_zero (dst src : List Nat) :
    (memcpy_at dst 0 src).drop src.length = dst.drop src.length := by
  simp [memcpy_at]

theorem length_mem_read (m : Mem) (addr n : Nat) : (mem_read m addr n).length = n := by
  simp [mem_read]

theorem getD_mem_read (m : Mem) (addr n i : Nat) (h : i < n) :
    (mem_read m addr n).getD i 0 = m (addr + i) := by
  simp [mem_read, List.getD_eq_getElem?_getD, List.getElem?_map, List.getElem?_range h]

theorem static_data_eq (size : Nat) (soname : List Nat) :
    memcpy_at (List.replicate (size + strlen soname + 1) 0) size (cstr soname ++ [0])
      = List.replicate size 0 ++ (cstr soname ++ [0]) := by
  have h1 : (cstr soname ++ [0]).length = strlen soname + 1 := by simp [length_cstr]
  unfold memcpy_at
  rw [h1, List.take_replicate, List.drop_replicate]
  have h2 : min size (size + strlen soname + 1) = size := by omega
  have h3 : size + strlen soname + 1 - (size + (strlen soname + 1)) = 0 := by omega
  rw [h2, h3]
  simp

theorem object_data_eq (name bytes : List Nat) :
    memcpy_at (memcpy_at (List.replicate (strlen name + 1 + bytes.length) 0) 0
        (cstr name ++ [0])) (strlen name + 1) bytes
      = cstr name ++ [0] ++ bytes := by
  have h1 : (cstr name ++ [0]).length = strlen name + 1 := by simp [length_cstr]
  have h2 : memcpy_at (List.replicate (strlen name + 1 + bytes.length) 0) 0 (cstr name ++ [0])
      = (cstr name ++ [0]) ++ List.replicate bytes.length 0 := by
    rw [memcpy_at_zero, h1, List.drop_replicate]
    have h3 : strlen name + 1 + bytes.length - (strlen name + 1) = bytes.length := by omega
    rw [h3]
  rw [h2]
  unfold memcpy_at
  rw [← h1, List.take_left, List.drop_append]
  simp

/-! ## Facts about building a context -/

theorem alloc_chunks (a : bxf_arena_s) (size : Nat) :
    (bxf_arena_alloc a size).2.chunks = a.chunks := by
  unfold bxf_arena_alloc
  split <;> rfl

theorem alloc_nonneg_or_enomem (a : bxf_arena_s) (size : Nat) :
    (size ≤ a.avail ∧ 0 ≤ (bxf_arena_alloc a size).1)
      ∨ (a.avail < size ∧ bxf_arena_alloc a size = (-ENOMEM, a)) := by
  unfold bxf_arena_alloc
  by_cases h : size ≤ a.avail
  · left
    simp [h]
  · right
    simp [h]
    omega

theorem alloc_fail (a : bxf_arena_s) (size : Nat) (h : (bxf_arena_alloc a size).1 < 0) :
    bxf_arena_alloc a size = (-ENOMEM, a) := by
  rcases alloc_nonneg_or_enomem a size with ⟨_, h1⟩ | ⟨_, h1⟩
  · omega
  · exact h1

theorem alloc_ok (a : bxf_arena_s) (size : Nat) (h : ¬ (bxf_arena_alloc a size).1 < 0) :
    bxf_arena_alloc a size = ((a.chunks.length : Int), { a with avail := a.avail - size }) := by
  unfold bxf_arena_alloc at h ⊢
  by_cases hs : size ≤ a.avail
  · simp [hs]
  · simp only [hs, if_false] at h
    exact absurd (by decide : (-ENOMEM : Int) < 0) h

theorem alloc_mono (a : bxf_arena_s) (small large : Nat) (hle : small ≤ large)
    (h : ¬ (bxf_arena_alloc a large).1 < 0) : ¬ (bxf_arena_alloc a small).1 < 0 := by
  rcases alloc_nonneg_or_enomem a large with ⟨h1, _⟩ | ⟨_, h1⟩
  · rcases alloc_nonneg_or_enomem a small with ⟨_, h2⟩ | ⟨h2, _⟩
    · omega
    · omega
  · rw [h1] at h
    exact absurd (by decide : (-ENOMEM : Int) < 0) h

theorem static_request_le (size : Nat) (soname : List Nat) :
    static_request size soname ≤ sizeof_static + size + strlen soname + 1 :=
  Nat.mod_le _ _

theorem static_request_exact (size : Nat) (soname : List Nat)
    (h : sizeof_static + size + strlen soname + 1 ≤ SIZE_MAX) :
    static_request size soname = sizeof_static + size + strlen soname + 1 :=
  Nat.mod_eq_of_lt (by omega)

theorem static_request_wrapped (size : Nat) (soname : List Nat)
    (h : SIZE_MAX < sizeof_static + size + strlen soname + 1) :
    static_request size soname < sizeof_static + size + strlen soname + 1 := by
  have h1 : static_request size soname < SIZE_MAX + 1 := Nat.mod_lt _ (by decide)
  omega

theorem static_store (size : Nat) (soname : List Nat) :
    (if sizeof_static ≤ static_request size soname then
        store_within (List.replicate (static_request size soname - sizeof_static) 0) size
          (cstr soname ++ [0])
      else none)
      = if sizeof_static + size + strlen soname + 1 ≤ SIZE_MAX
          then some (List.replicate size 0 ++ (cstr soname ++ [0])) else none := by
  have hlen : (cstr soname ++ [0]).length = strlen soname + 1 := by simp [length_cstr]
  by_cases h : sizeof_static + size + strlen soname + 1 ≤ SIZE_MAX
  · have hr := static_request_exact size soname h
    have h1 : sizeof_static ≤ sizeof_static + size + strlen soname + 1 := by omega
    have h2 : sizeof_static + size + strlen soname + 1 - sizeof_static
        = size + strlen soname + 1 := by omega
    rw [hr]
    simp only [h1, h, if_true, h2, store_within, hlen, List.length_replicate]
    have h3 : size + (strlen soname + 1) ≤ size + strlen soname + 1 := by omega
    simp only [h3, if_true, static_data_eq]
  · have hr := static_request_wrapped size soname (by omega)
    simp only [h, if_false]
    by_cases h1 : sizeof_static ≤ static_request size soname
    · simp only [h1, if_true, store_within, hlen, List.length_replicate]
      have h3 : ¬ (size + (strlen soname + 1) ≤ static_request size soname - sizeof_static) := by
        omega
      simp only [h3, if_false]
    · simp only [h1, if_false]

theorem addstatic_eq (P : Platform) (ctx : bxf_context) (ptr size : Nat)
    (hn : ¬ (P.bxfi_normalize_addr ptr).1 < 0)
    (ha : ¬ (bxf_arena_alloc ctx.arena
      (static_request size (P.bxfi_normalize_addr ptr).2.soname)).1 < 0) :
    bxf_context_addstatic P ctx ptr size
      = (0, { ctx with arena :=
          { ctx.arena with
            avail := ctx.arena.avail
              - static_request size (P.bxfi_normalize_addr ptr).2.soname,
            chunks := ctx.arena.chunks ++ [(Call.addstatic ptr size).elt P],
            overrun :=
              if sizeof_static + size + strlen (P.bxfi_normalize_addr ptr).2.soname + 1 ≤ SIZE_MAX
                then ctx.arena.overrun else true } }) := by
  have hf := alloc_ok _ _ ha
  unfold bxf_context_addstatic
  rcases hnorm : P.bxfi_normalize_addr ptr with ⟨rc, addr⟩
  rw [hnorm] at hn hf
  simp only at hn hf
  have hp : ¬ ((ctx.arena.chunks.length : Int) < 0) := by omega
  simp only [hn, if_false, hf, hp, static_store]
  by_cases h : sizeof_static + size + strlen addr.soname + 1 ≤ SIZE_MAX
  · simp only [h, if_true, arena_fill, Call.elt, hnorm]
  · simp only [h, if_false, arena_fill, Call.elt, hnorm, static_data_eq]

theorem addstatic_normalize_fail (P : Platform) (ctx : bxf_context) (ptr size : Nat)
    (h : (P.bxfi_normalize_addr ptr).1 < 0) :
    bxf_context_addstatic P ctx ptr size = ((P.bxfi_normalize_addr ptr).1, ctx) := by
  unfold bxf_context_addstatic
  rcases hn : P.bxfi_normalize_addr ptr with ⟨rc, addr⟩
  rw [hn] at h
  simp only at h
  simp only [h, if_true]

theorem addstatic_request_fail (P : Platform) (ctx : bxf_context) (ptr size : Nat)
    (hn : ¬ (P.bxfi_normalize_addr ptr).1 < 0)
    (ha : (bxf_arena_alloc ctx.arena
      (static_request size (P.bxfi_normalize_addr ptr).2.soname)).1 < 0) :
    bxf_context_addstatic P ctx ptr size = (-ENOMEM, ctx) := by
  have hf := alloc_fail _ _ ha
  unfold bxf_context_addstatic
  rcases hnorm : P.bxfi_normalize_addr ptr with ⟨rc, addr⟩
  rw [hnorm] at hn hf
  simp only at hn hf
  simp only [hn, if_false, hf]
  have hneg : (-ENOMEM : Int) < 0 := by decide
  simp only [hneg, if_true]

theorem addstatic_chunks (P : Platform) (ctx ctx1 : bxf_context) (ptr size : Nat)
    (h : bxf_context_addstatic P ctx ptr size = (0, ctx1)) :
    ctx1.arena.chunks = ctx.arena.chunks ++ [(Call.addstatic ptr size).elt P] := by
  by_cases hn : (P.bxfi_normalize_addr ptr).1 < 0
  · rw [addstatic_normalize_fail P ctx ptr size hn] at h
    have h1 := congrArg Prod.fst h
    simp only at h1
    omega
  · by_cases ha : (bxf_arena_alloc ctx.arena
        (static_request size (P.bxfi_normalize_addr ptr).2.soname)).1 < 0
    · rw [addstatic_request_fail P ctx ptr size hn ha] at h
      have h1 := congrArg Prod.fst h
      have h2 : (-ENOMEM : Int) ≠ 0 := by decide
      exact absurd h1 h2
    · rw [addstatic_eq P ctx ptr size hn ha] at h
      have h2 := congrArg Prod.snd h
      simp only at h2
      rw [← h2]

theorem addarena_chunks (ctx ctx1 : bxf_context) (arena : bxf_arena_s) (P : Platform)
    (h : bxf_context_addarena ctx arena = (0, ctx1)) :
    ctx1.arena.chunks = ctx.arena.chunks ++ [(Call.addarena arena).elt P] := by
  unfold bxf_context_addarena at h
  by_cases hp : (bxf_arena_alloc ctx.arena sizeof_arena).1 < 0
  · simp only [hp, if_true] at h
    have h1 := congrArg Prod.fst h
    simp only at h1
    omega
  · simp only [hp, if_false] at h
    have h2 := congrArg Prod.snd h
    simp only at h2
    rw [← h2]
    simp [arena_fill, alloc_chunks, Call.elt]

theorem addobject_chunks (ctx ctx1 : bxf_context) (name bytes : List Nat)
    (h : bxf_context_addobject ctx name bytes = (0, ctx1)) :
    ctx1.arena.chunks
      = ctx.arena.chunks ++ [.bxfi_ctx_object (strlen name + 1) (cstr name ++ [0] ++ bytes)] := by
  unfold bxf_context_addobject at h
  by_cases hp : (bxf_arena_alloc ctx.arena
      (sizeof_object + (strlen name + 1) + bytes.length)).1 < 0
  · simp only [hp, if_true] at h
    have h1 := congrArg Prod.fst h
    simp only at h1
    omega
  · simp only [hp, if_false] at h
    have h2 := congrArg Prod.snd h
    simp only at h2
    rw [← h2]
    simp only [arena_fill, alloc_chunks, object_data_eq]

theorem run_chunks (P : Platform) (c : Call) (ctx ctx1 : bxf_context)
    (h : c.run P ctx = (0, ctx1)) :
    ctx1.arena.chunks = ctx.arena.chunks ++ [c.elt P] := by
  cases c with
  | addstatic ptr size => exact addstatic_chunks P ctx ctx1 ptr size h
  | addarena arena => exact addarena_chunks ctx ctx1 arena P h
  | addobject name bytes => exact addobject_chunks ctx ctx1 name bytes h
  | addfile name file => exact addobject_chunks ctx ctx1 name _ h

theorem build_chunks (P : Platform) (cs : List Call) (ctx ctx1 : bxf_context)
    (h : build P cs ctx = some ctx1) :
    ctx1.arena.chunks = ctx.arena.chunks ++ cs.map (Call.elt P) := by
  induction cs generalizing ctx with
  | nil =>
    simp only [build, Option.some.injEq] at h
    simp [h]
  | cons c cs ih =>
    unfold build at h
    by_cases hrc : (c.run P ctx).1 = 0
    · simp only [hrc, if_true] at h
      have h1 : c.run P ctx = (0, (c.run P ctx).2) := by
        rw [← hrc]
      rw [ih _ h, run_chunks P c ctx _ h1]
      simp
    · simp only [hrc, if_false] at h
      exact absurd h (by simp)

/-! ## Facts about the lookup -/

theorem find_obj_miss (p : Nat) (e : Elt) (size : Nat) (fctx : bxfi_find_ctx)
    (h : is_named fctx.name e = false) : find_obj p e size fctx = (0, e, fctx) := by
  cases e with
  | bxfi_ctx_static addr sz data => simp [find_obj, Elt.tag]
  | bxfi_ctx_arena flags handle base => simp [find_obj, Elt.tag]
  | bxfi_ctx_object namesz data =>
    have h1 : ¬ strcmp data fctx.name = 0 := by
      rw [strcmp_eq_zero_iff]
      simpa [is_named] using h
    simp [find_obj, Elt.tag, h1]

theorem find_obj_hit (p : Nat) (e : Elt) (size : Nat) (fctx : bxfi_find_ctx)
    (h : is_named fctx.name e = true) :
    find_obj p e size fctx = (1, e, { fctx with result := Ptr.elt p }) := by
  cases e with
  | bxfi_ctx_static addr sz data => simp [is_named] at h
  | bxfi_ctx_arena flags handle base => simp [is_named] at h
  | bxfi_ctx_object namesz data =>
    have h1 : strcmp data fctx.name = 0 := by
      rw [strcmp_eq_zero_iff]
      simpa [is_named] using h
    simp [find_obj, Elt.tag, h1]

theorem iter_find_miss (es : List Elt) (p : Nat) (fctx : bxfi_find_ctx)
    (h : ∀ e ∈ es, is_named fctx.name e = false) :
    iter_chunks find_obj p es fctx = (0, es, fctx) := by
  induction es generalizing p with
  | nil => rfl
  | cons e es ih =>
    have h1 := find_obj_miss p e e.chunk_size fctx (h e (by simp))
    have h2 := ih (p + 1) (fun x hx => h x (by simp [hx]))
    simp [iter_chunks, h1, h2]

theorem iter_find_hit (es1 es2 : List Elt) (e : Elt) (p : Nat) (fctx : bxfi_find_ctx)
    (h1 : ∀ x ∈ es1, is_named fctx.name x = false) (h2 : is_named fctx.name e = true) :
    iter_chunks find_obj p (es1 ++ e :: es2) fctx
      = (1, es1 ++ e :: es2, { fctx with result := Ptr.elt (p + es1.length) }) := by
  induction es1 generalizing p with
  | nil =>
    have h3 := find_obj_hit p e e.chunk_size fctx h2
    simp [iter_chunks, h3]
  | cons x xs ih =>
    have h3 := find_obj_miss p x x.chunk_size fctx (h1 x (by simp))
    have h4 := ih (p + 1) (fun y hy => h1 y (by simp [hy]))
    have h5 : p + 1 + xs.length = p + (x :: xs).length := by
      simp only [List.length_cons]
      omega
    rw [List.cons_append, iter_chunks, h3]
    simp only [ne_eq, not_true_eq_false, if_false]
    rw [h4, h5]

theorem is_named_call_elt (P : Platform) (n : List Nat) (c : Call) :
    is_named n (c.elt P) = decide (c.object_name = some (cstr n)) := by
  cases c with
  | addstatic ptr size => simp [Call.elt, is_named, Call.object_name]
  | addarena arena => simp [Call.elt, is_named, Call.object_name]
  | addobject name bytes =>
    simp [Call.elt, is_named, Call.object_name, cstr_terminated]
  | addfile name file =>
    simp [Call.elt, is_named, Call.object_name, cstr_terminated]

theorem getobject_first_match (ctx : bxf_context) (n : List Nat) (es1 es2 : List Elt)
    (e : Elt) (h : ctx.arena.chunks = es1 ++ e :: es2)
    (h1 : ∀ x ∈ es1, is_named n x = false) (h2 : is_named n e = true) :
    bxf_context_getobject ctx n = (1, some (Ptr.elt es1.length)) := by
  have hi := iter_find_hit es1 es2 e 0 { name := n, result := Ptr.null } h1 h2
  simp [bxf_context_getobject, bxf_arena_iter, h, hi]

theorem getobject_written_iff_found (ctx : bxf_context) (n : List Nat) :
    ((bxf_context_getobject ctx n).1 = 0 ∧ (bxf_context_getobject ctx n).2 = none)
      ∨ ((bxf_context_getobject ctx n).1 ≠ 0 ∧ (bxf_context_getobject ctx n).2 ≠ none) := by
  unfold bxf_context_getobject
  by_cases hf : (bxf_arena_iter ctx.arena find_obj { name := n, result := Ptr.null }).1 = 0
  · left
    simp [hf]
  · right
    simp [hf]

theorem getfile_never_reconstructs (P : Platform) (ctx : bxf_context) (n : List Nat) :
    bxf_context_getfile P ctx n = getfile_result.undefined
      ∨ ∃ rc, rc ≠ 0 ∧ bxf_context_getfile P ctx n = getfile_result.returned rc none := by
  unfold bxf_context_getfile
  rcases getobject_written_iff_found ctx n with ⟨h1, h2⟩ | ⟨h1, _⟩
  · left
    rcases hg : bxf_context_getobject ctx n with ⟨rc, fd⟩
    rw [hg] at h1 h2
    simp only at h1 h2
    simp [h1, h2]
  · right
    rcases hg : bxf_context_getobject ctx n with ⟨rc, fd⟩
    rw [hg] at h1
    simp only at h1
    exact ⟨rc, h1, by simp [h1]⟩

/-! ## The context store -/

/-- C1 (defect of the code). After `bxf_context_addobject(ctx, "k", &v, sizeof (int))`
with `v = 7` on a fresh context, `bxf_context_getobject(ctx, "k", &p)` reports
found, but the pointer it stores is the address of the element itself, where
the discriminator lies: read as an `int` it gives the tag value 2. The payload
lies elsewhere, at `data[namesz]`, and reads 7. -/
theorem getobject_stores_element_address :
    bxf_context_addobject fresh_context [107] (int_bytes 7)
        = (0, { arena := { self := 4096, handle := 3, flags := 5, avail := 65514,
                           chunks := [.bxfi_ctx_object 2 [107, 0, 7, 0, 0, 0]] } })
      ∧ bxf_context_getobject (bxf_context_addobject fresh_context [107] (int_bytes 7)).2 [107]
        = (1, some (Ptr.elt 0))
      ∧ Ptr.elt 0 ≠ Ptr.data 0 2
      ∧ load_int (bxf_context_addobject fresh_context [107] (int_bytes 7)).2 (Ptr.elt 0)
        = some 2
      ∧ load_bytes (bxf_context_addobject fresh_context [107] (int_bytes 7)).2 (Ptr.data 0 2) 4
        = some (int_bytes 7)
      ∧ load_int (bxf_context_addobject fresh_context [107] (int_bytes 7)).2 (Ptr.data 0 2)
        = some 7 := by
  decide

/-- C4 (defect of the code, the one of C1). Two `bxf_context_addobject` calls
with the name "k" and payloads 1 then 2, an Arena element between them: both
succeed and both elements are stored; `bxf_context_getobject(ctx, "k", &p)`
selects the earlier element, yet stores the address of that element (its
discriminator, value 2) and not that of its payload 1, which lies at
`data[namesz]`. -/
theorem getobject_duplicate_names_stores_element_address :
    (build (example_platform 4096 false fresh_context.arena)
        [.addobject [107] (int_bytes 1), .addarena fresh_context.arena,
         .addobject [107] (int_bytes 2)] fresh_context).map (fun ctx => ctx.arena.chunks)
        = some [.bxfi_ctx_object 2 [107, 0, 1, 0, 0, 0], .bxfi_ctx_arena 5 3 0,
                .bxfi_ctx_object 2 [107, 0, 2, 0, 0, 0]]
      ∧ (build (example_platform 4096 false fresh_context.arena)
        [.addobject [107] (int_bytes 1), .addarena fresh_context.arena,
         .addobject [107] (int_bytes 2)] fresh_context).map
          (fun ctx => (bxf_context_getobject ctx [107], load_int ctx (Ptr.elt 0),
            load_int ctx (Ptr.data 0 2), load_int ctx (Ptr.data 2 2)))
        = some ((1, some (Ptr.elt 0)), some 2, some 1, some 2) := by
  decide

/-- C5. Lookup miss: take any context in which no Object element is named `n`,
and add to it by any sequence of successful calls none of which stores an
Object under the name `n`. Then `bxf_context_getobject` returns 0 (not found)
and stores nothing through the pointer it was given, whatever Static and
Arena elements and whatever Objects of other names the context holds. -/
theorem getobject_miss (P : Platform) (calls : List Call) (ctx0 ctx : bxf_context)
    (n : List Nat)
    (h0 : ∀ e ∈ ctx0.arena.chunks, is_named n e = false)
    (hb : build P calls ctx0 = some ctx)
    (hn : ∀ c ∈ calls, c.object_name ≠ some (cstr n)) :
    bxf_context_getobject ctx n = (0, none) := by
  have hc := build_chunks P calls ctx0 ctx hb
  have hall : ∀ e ∈ ctx.arena.chunks, is_named n e = false := by
    intro e he
    rw [hc, List.mem_append] at he
    rcases he with he | he
    · exact h0 e he
    · rcases List.mem_map.mp he with ⟨c, hcm, rfl⟩
      rw [is_named_call_elt]
      simpa using hn c hcm
  have hi := iter_find_miss ctx.arena.chunks 0 { name := n, result := Ptr.null } hall
  simp [bxf_context_getobject, bxf_arena_iter, hi]

/-- C5, an instance: `mixed_context`, built by four successful calls, holds a
Static element, an Arena element and Objects named "k" and "kkk"; the lookup
of "kk" misses. -/
theorem getobject_miss_witness :
    build (example_platform 4096 false fresh_context.arena)
        [.addstatic 4100 4, .addobject [107] [1], .addarena fresh_context.arena,
         .addobject [107, 107, 107] [2]] fresh_context
        = some mixed_context
      ∧ bxf_context_getobject mixed_context [107, 107] = (0, none) :=
  ⟨by decide,
   getobject_miss (example_platform 4096 false fresh_context.arena)
     [.addstatic 4100 4, .addobject [107] [1], .addarena fresh_context.arena,
      .addobject [107, 107, 107] [2]] fresh_context _ [107, 107]
     (by decide) (by decide) (by decide)⟩

/-- C6 (defect of the code). After a successful
`bxf_context_addfile(ctx, "in", s)` on a fresh context, `s` wrapping
descriptor 5, the raw value 5 is stored as the payload of the Object "in";
`bxf_context_getfile(ctx, "in", &f)` finds the entry and returns 1, and because
it tests `!rc` it neither reads the stored value nor calls `fdopen`: nothing
is stored through `f`. -/
theorem getfile_hit_stores_no_stream :
    bxf_context_addfile (example_platform 4096 false fresh_context.arena) fresh_context
        [105, 110] 1005
        = (0, { arena := { self := 4096, handle := 3, flags := 5, avail := 65513,
                           chunks := [.bxfi_ctx_object 3 [105, 110, 0, 5, 0, 0, 0]] } })
      ∧ load_int (bxf_context_addfile (example_platform 4096 false fresh_context.arena)
          fresh_context [105, 110] 1005).2 (Ptr.data 0 3) = some 5
      ∧ bxf_context_getfile (example_platform 4096 false fresh_context.arena)
          (bxf_context_addfile (example_platform 4096 false fresh_context.arena)
            fresh_context [105, 110] 1005).2 [105, 110]
        = getfile_result.returned 1 none := by
  decide

/-- C7 (defect of the code, the one of C6). On a context without any Object
named "in", `bxf_context_getobject` returns 0 and leaves `fd` unassigned;
`bxf_context_getfile` then takes the `!rc` branch and evaluates `*fd`. -/
theorem getfile_miss_reads_unassigned_pointer :
    bxf_context_getobject fresh_context [105, 110] = (0, none)
      ∧ bxf_context_getfile (example_platform 4096 false fresh_context.arena)
          fresh_context [105, 110] = getfile_result.undefined
      ∧ bxf_context_getfile (example_platform 4096 false fresh_context.arena)
          (bxf_context_addobject fresh_context [111, 117, 116] (int_bytes 6)).2 [105, 110]
        = getfile_result.undefined := by
  decide

/-! ## Facts about the iteration of `inherit_elt` -/

theorem mem_write_outside (m : Mem) (addr : Nat) (bytes : List Nat) (x : Nat)
    (h : ¬ (addr ≤ x ∧ x < addr + bytes.length)) : mem_write m addr bytes x = m x := by
  simp only [mem_write, h, if_false]

theorem mem_write_inside (m : Mem) (addr : Nat) (bytes : List Nat) (i : Nat)
    (h : i < bytes.length) : mem_write m addr bytes (addr + i) = bytes.getD i 0 := by
  have h1 : addr ≤ addr + i ∧ addr + i < addr + bytes.length := ⟨by omega, by omega⟩
  simp only [mem_write, h1, and_self, if_true]
  congr 1
  omega

theorem transplant_outside (Q : Platform) (m : Mem) (e : Elt) (x : Nat)
    (h : ¬ covers Q e x) : transplant Q m e x = m x := by
  cases e with
  | bxfi_ctx_static addr size data => exact mem_write_outside _ _ _ _ h
  | bxfi_ctx_arena flags handle base => rfl
  | bxfi_ctx_object namesz data => rfl

theorem transplants_outside (Q : Platform) (es : List Elt) (m : Mem) (x : Nat)
    (h : ∀ e ∈ es, ¬ covers Q e x) : transplants Q es m x = m x := by
  induction es generalizing m with
  | nil => rfl
  | cons e es ih =>
    rw [transplants, ih _ (fun y hy => h y (by simp [hy]))]
    exact transplant_outside Q m e x (h e (by simp))

theorem transplants_append (Q : Platform) (es1 es2 : List Elt) (m : Mem) :
    transplants Q (es1 ++ es2) m = transplants Q es2 (transplants Q es1 m) := by
  induction es1 generalizing m with
  | nil => rfl
  | cons e es ih =>
    rw [List.cons_append, transplants, transplants]
    exact ih _

theorem nested_binds_append (es1 es2 : List Elt) :
    nested_binds (es1 ++ es2) = nested_binds es1 ++ nested_binds es2 := by
  induction es1 with
  | nil => rfl
  | cons e es ih => cases e <;> simp [nested_binds, ih]

theorem nested_handles_append (es1 es2 : List Elt) :
    nested_handles (es1 ++ es2) = nested_handles es1 ++ nested_handles es2 := by
  induction es1 with
  | nil => rfl
  | cons e es ih => cases e <;> simp [nested_handles, ih]

theorem inherit_elt_ok (Q : Platform) (p : Nat) (e : Elt) (size : Nat) (w : Participant)
    (h : fails Q e = false) :
    inherit_elt Q p e size w
      = (0, e, { mem := transplant Q w.mem e, bound := w.bound ++ nested_binds [e] }) := by
  cases e with
  | bxfi_ctx_static addr sz data =>
    have h1 : ¬ Q.bxfi_denormalize_addr { addr := addr, soname := data.drop sz } = 0 := by
      simpa [fails, Elt.target] using h
    simp [inherit_elt, h1, transplant, nested_binds]
  | bxfi_ctx_arena flags handle base => simp [inherit_elt, transplant, nested_binds]
  | bxfi_ctx_object namesz data => simp [inherit_elt, transplant, nested_binds]

theorem inherit_elt_fail (Q : Platform) (p : Nat) (e : Elt) (size : Nat) (w : Participant)
    (h : fails Q e = true) : inherit_elt Q p e size w = (-EINVAL, e, w) := by
  cases e with
  | bxfi_ctx_static addr sz data =>
    have h1 : Q.bxfi_denormalize_addr { addr := addr, soname := data.drop sz } = 0 := by
      simpa [fails, Elt.target] using h
    simp [inherit_elt, h1]
  | bxfi_ctx_arena flags handle base => simp [fails, Elt.target] at h
  | bxfi_ctx_object namesz data => simp [fails, Elt.target] at h

theorem iter_inherit_ok (Q : Platform) (es : List Elt) (p : Nat) (w : Participant)
    (h : ∀ e ∈ es, fails Q e = false) :
    iter_chunks (inherit_elt Q) p es w
      = (0, es, { mem := transplants Q es w.mem, bound := w.bound ++ nested_binds es }) := by
  induction es generalizing p w with
  | nil => simp [iter_chunks, transplants, nested_binds]
  | cons e es ih =>
    have h1 := inherit_elt_ok Q p e e.chunk_size w (h e (by simp))
    have h2 := ih (p + 1) { mem := transplant Q w.mem e, bound := w.bound ++ nested_binds [e] }
      (fun x hx => h x (by simp [hx]))
    rw [iter_chunks, h1]
    simp only [ne_eq, not_true_eq_false, if_false]
    rw [h2]
    have h3 : nested_binds (e :: es) = nested_binds [e] ++ nested_binds es :=
      nested_binds_append [e] es
    simp only [transplants, h3, List.append_assoc]

theorem iter_inherit_fail (Q : Platform) (es1 es2 : List Elt) (e : Elt) (p : Nat)
    (w : Participant) (h1 : ∀ x ∈ es1, fails Q x = false) (h2 : fails Q e = true) :
    iter_chunks (inherit_elt Q) p (es1 ++ e :: es2) w
      = (-EINVAL, es1 ++ e :: es2,
          { mem := transplants Q es1 w.mem, bound := w.bound ++ nested_binds es1 }) := by
  induction es1 generalizing p w with
  | nil =>
    have h3 := inherit_elt_fail Q p e e.chunk_size w h2
    have h4 : (-EINVAL : Int) ≠ 0 := by decide
    simp [iter_chunks, h3, h4, transplants, nested_binds]
  | cons x xs ih =>
    have h3 := inherit_elt_ok Q p x x.chunk_size w (h1 x (by simp))
    have h4 := ih (p + 1) { mem := transplant Q w.mem x, bound := w.bound ++ nested_binds [x] }
      (fun y hy => h1 y (by simp [hy]))
    rw [List.cons_append, iter_chunks, h3]
    simp only [ne_eq, not_true_eq_false, if_false]
    rw [h4]
    have h5 : nested_binds (x :: xs) = nested_binds [x] ++ nested_binds xs :=
      nested_binds_append [x] xs
    simp only [transplants, h5, List.append_assoc]

/-! ## Facts about positions in the chunk list -/

theorem split_at_position (es : List Elt) (k : Nat) (e : Elt) (h : es[k]? = some e) :
    es = es.take k ++ e :: es.drop (k + 1) := by
  induction es generalizing k with
  | nil => simp at h
  | cons x xs ih =>
    cases k with
    | zero =>
      simp only [List.getElem?_cons_zero, Option.some.injEq] at h
      simp [h]
    | succ k =>
      simp only [List.getElem?_cons_succ] at h
      have h1 := ih k h
      simp only [List.take_succ_cons, List.drop_succ_cons, List.cons_append]
      rw [← h1]

theorem position_of_mem_take (es : List Elt) (k : Nat) (x : Elt) (h : x ∈ es.take k) :
    ∃ j : Nat, j < k ∧ es[j]? = some x := by
  induction es generalizing k with
  | nil => simp at h
  | cons y ys ih =>
    cases k with
    | zero => simp at h
    | succ k =>
      simp only [List.take_succ_cons, List.mem_cons] at h
      rcases h with h | h
      · exact ⟨0, by omega, by simp [h]⟩
      · rcases ih k h with ⟨j, hj, hx⟩
        exact ⟨j + 1, by omega, by simpa using hx⟩

theorem position_of_mem (es : List Elt) (x : Elt) (h : x ∈ es) : ∃ j : Nat, es[j]? = some x := by
  rcases List.getElem_of_mem h with ⟨j, hj, hx⟩
  exact ⟨j, by simp [List.getElem?_eq_getElem hj, hx]⟩

theorem fails_static (Q : Platform) (addr size : Nat) (data : List Nat) :
    fails Q (.bxfi_ctx_static addr size data)
      = decide (Q.bxfi_denormalize_addr { addr := addr, soname := data.drop size } = 0) := by
  simp [fails, Elt.target]

theorem not_fails_of_first (Q : Platform) (es : List Elt) (k : Nat)
    (hfirst : ∀ j : Nat, j < k → ∀ a s d, es[j]? = some (.bxfi_ctx_static a s d) →
      Q.bxfi_denormalize_addr { addr := a, soname := d.drop s } ≠ 0) :
    ∀ x ∈ es.take k, fails Q x = false := by
  intro x hx
  rcases position_of_mem_take es k x hx with ⟨j, hj, hjx⟩
  cases x with
  | bxfi_ctx_static a s d =>
    rw [fails_static]
    simpa using hfirst j hj a s d hjx
  | bxfi_ctx_arena flags handle base => simp [fails, Elt.target]
  | bxfi_ctx_object namesz data => simp [fails, Elt.target]

/-! ## The crossing protocol: inherit -/

/-- C8. Inherit fail-fast ordering. Let the handle bind (the context was
transferred) to an arena in which position `k` holds the first Static element
whose descriptor fails to denormalize in the participant. Then
`bxfi_context_inherit` returns `-EINVAL`, and the memory it leaves is the one
obtained from the initial memory by the transplants of the elements before
position `k`, in order, and by nothing else: every Static element before `k`
has had its payload copied to its target (and that copy is still there unless
a later element before `k` wrote over it), while the elements at and after `k`
wrote nothing. -/
theorem inherit_fail_fast (Q : Platform) (hndl : Nat) (w : Participant) (rc : Int)
    (arena : bxf_arena_s) (k addr size : Nat) (data : List Nat)
    (hbind : Q.bxfi_arena_inherit hndl 0 0 = (rc, arena)) (hrc : 0 ≤ rc)
    (hk : arena.chunks[k]? = some (.bxfi_ctx_static addr size data))
    (hfail : Q.bxfi_denormalize_addr { addr := addr, soname := data.drop size } = 0)
    (hfirst : ∀ j : Nat, j < k → ∀ a s d, arena.chunks[j]? = some (.bxfi_ctx_static a s d) →
      Q.bxfi_denormalize_addr { addr := a, soname := d.drop s } ≠ 0) :
    (bxfi_context_inherit Q hndl w).1 = -EINVAL
      ∧ (bxfi_context_inherit Q hndl w).2.2.mem = transplants Q (arena.chunks.take k) w.mem
      ∧ (∀ j : Nat, j < k → ∀ a s d, arena.chunks[j]? = some (.bxfi_ctx_static a s d) →
          ∀ i, i < (d.take s).length →
            (∀ e ∈ (arena.chunks.take k).drop (j + 1),
              ¬ covers Q e (Q.bxfi_denormalize_addr { addr := a, soname := d.drop s } + i)) →
            (bxfi_context_inherit Q hndl w).2.2.mem
                (Q.bxfi_denormalize_addr { addr := a, soname := d.drop s } + i) = d.getD i 0)
      ∧ (∀ x, (∀ e ∈ arena.chunks.take k, ¬ covers Q e x) →
          (bxfi_context_inherit Q hndl w).2.2.mem x = w.mem x) := by
  have hsplit := split_at_position arena.chunks k _ hk
  have hok := not_fails_of_first Q arena.chunks k hfirst
  have hbad : fails Q (.bxfi_ctx_static addr size data) = true := by
    rw [fails_static]
    simp [hfail]
  have hit := iter_inherit_fail Q (arena.chunks.take k) (arena.chunks.drop (k + 1)) _ 0
    { mem := w.mem, bound := w.bound ++ [(hndl, 0, 0)] } hok hbad
  rw [← hsplit] at hit
  have hres : bxfi_context_inherit Q hndl w
      = (-EINVAL, { arena with chunks := arena.chunks },
          { mem := transplants Q (arena.chunks.take k) w.mem,
            bound := w.bound ++ [(hndl, 0, 0)] ++ nested_binds (arena.chunks.take k) }) := by
    have hn : ¬ rc < 0 := by omega
    simp only [bxfi_context_inherit, hbind, hn, if_false, bxf_arena_iter, hit]
  rw [hres]
  refine ⟨rfl, rfl, ?_, ?_⟩
  · intro j hj a s d hjx i hi hlater
    have hjk : (arena.chunks.take k)[j]? = some (.bxfi_ctx_static a s d) := by
      rw [List.getElem?_take_of_lt hj]
      exact hjx
    have hsp := split_at_position (arena.chunks.take k) j _ hjk
    show transplants Q (arena.chunks.take k) w.mem _ = _
    rw [hsp, transplants_append, transplants, transplants_outside Q _ _ _ hlater]
    show mem_write _ _ (d.take s) _ = _
    rw [mem_write_inside _ _ _ _ hi]
    have hi2 : i < s := by
      simp only [List.length_take] at hi
      omega
    simp [List.getD_eq_getElem?_getD, List.getElem?_take_of_lt hi2]
  · intro x hx
    exact transplants_outside Q _ _ _ hx

/-- C8, an instance: in `transferred_arena`, received by a participant in which
module "x" is not loaded, position 2 holds the first Static element that fails
to denormalize; inherit returns `-EINVAL`, the payload 9, 8 of position 0 has
reached its target 20484, and the payload 7 of position 3 has not been
written to 20486. -/
theorem inherit_fail_fast_witness :
    (example_platform 20480 false transferred_arena).bxfi_arena_inherit 3 0 0
        = (0, transferred_arena)
      ∧ transferred_arena.chunks[2]? = some (.bxfi_ctx_static 0 1 [5, 120, 0])
      ∧ (bxfi_context_inherit (example_platform 20480 false transferred_arena) 3
          blank_participant).1 = -EINVAL
      ∧ (bxfi_context_inherit (example_platform 20480 false transferred_arena) 3
          blank_participant).2.2.mem 20484 = 9
      ∧ (bxfi_context_inherit (example_platform 20480 false transferred_arena) 3
          blank_participant).2.2.mem 20485 = 8
      ∧ (bxfi_context_inherit (example_platform 20480 false transferred_arena) 3
          blank_participant).2.2.mem 20486 = 0 := by
  have h := inherit_fail_fast (example_platform 20480 false transferred_arena) 3
    blank_participant 0 transferred_arena 2 0 1 [5, 120, 0] rfl (by decide) rfl (by decide)
    (by
      intro j hj a s d hjx
      have hj2 : j = 0 ∨ j = 1 := by omega
      rcases hj2 with rfl | rfl
      · simp only [transferred_arena, List.getElem?_cons_zero, Option.some.injEq,
          Elt.bxfi_ctx_static.injEq] at hjx
        rcases hjx with ⟨rfl, rfl, rfl⟩
        decide
      · simp [transferred_arena] at hjx)
  refine ⟨rfl, rfl, h.1, ?_, ?_, ?_⟩
  · rw [h.2.1]
    decide
  · rw [h.2.1]
    decide
  · rw [h.2.1]
    decide

/-! ## Facts about the iteration of `prepare_elt` -/

theorem prepare_elt_ok (P : Platform) (m : Mem) (p : Nat) (e : Elt) (size : Nat)
    (primed : List Nat) (h : fails P e = false) :
    prepare_elt P m p e size primed = (0, capture P m e, primed ++ nested_handles [e]) := by
  cases e with
  | bxfi_ctx_static addr sz data =>
    have h1 : ¬ P.bxfi_denormalize_addr { addr := addr, soname := data.drop sz } = 0 := by
      simpa [fails, Elt.target] using h
    simp [prepare_elt, h1, capture, nested_handles, memcpy_at_zero, length_mem_read]
  | bxfi_ctx_arena flags handle base => simp [prepare_elt, capture, nested_handles]
  | bxfi_ctx_object namesz data => simp [prepare_elt, capture, nested_handles]

theorem prepare_elt_fail (P : Platform) (m : Mem) (p : Nat) (e : Elt) (size : Nat)
    (primed : List Nat) (h : fails P e = true) :
    prepare_elt P m p e size primed = (-EINVAL, e, primed) := by
  cases e with
  | bxfi_ctx_static addr sz data =>
    have h1 : P.bxfi_denormalize_addr { addr := addr, soname := data.drop sz } = 0 := by
      simpa [fails, Elt.target] using h
    simp [prepare_elt, h1]
  | bxfi_ctx_arena flags handle base => simp [fails, Elt.target] at h
  | bxfi_ctx_object namesz data => simp [fails, Elt.target] at h

theorem iter_prepare_ok (P : Platform) (m : Mem) (es : List Elt) (p : Nat)
    (primed : List Nat) (h : ∀ e ∈ es, fails P e = false) :
    iter_chunks (prepare_elt P m) p es primed
      = (0, es.map (capture P m), primed ++ nested_handles es) := by
  induction es generalizing p primed with
  | nil => simp [iter_chunks, nested_handles]
  | cons e es ih =>
    have h1 := prepare_elt_ok P m p e e.chunk_size primed (h e (by simp))
    have h2 := ih (p + 1) (primed ++ nested_handles [e]) (fun x hx => h x (by simp [hx]))
    rw [iter_chunks, h1]
    simp only [ne_eq, not_true_eq_false, if_false]
    rw [h2]
    have h3 : nested_handles (e :: es) = nested_handles [e] ++ nested_handles es :=
      nested_handles_append [e] es
    simp only [List.map_cons, h3, List.append_assoc]

theorem iter_prepare_fail (P : Platform) (m : Mem) (es1 es2 : List Elt) (e : Elt) (p : Nat)
    (primed : List Nat) (h1 : ∀ x ∈ es1, fails P x = false) (h2 : fails P e = true) :
    iter_chunks (prepare_elt P m) p (es1 ++ e :: es2) primed
      = (-EINVAL, es1.map (capture P m) ++ e :: es2, primed ++ nested_handles es1) := by
  induction es1 generalizing p primed with
  | nil =>
    have h3 := prepare_elt_fail P m p e e.chunk_size primed h2
    have h4 : (-EINVAL : Int) ≠ 0 := by decide
    simp [iter_chunks, h3, h4, nested_handles]
  | cons x xs ih =>
    have h3 := prepare_elt_ok P m p x x.chunk_size primed (h1 x (by simp))
    have h4 := ih (p + 1) (primed ++ nested_handles [x]) (fun y hy => h1 y (by simp [hy]))
    rw [List.cons_append, iter_chunks, h3]
    simp only [ne_eq, not_true_eq_false, if_false]
    rw [h4]
    have h5 : nested_handles (x :: xs) = nested_handles [x] ++ nested_handles xs :=
      nested_handles_append [x] xs
    simp only [List.map_cons, List.cons_append, h5, List.append_assoc]

/-! ## The crossing protocol: prepare -/

/-- C9 (defect of the code). A context holds one Arena element whose nested
handle 13 cannot be primed: `bxfi_arena_prepare(13)` returns `-9`. The backing
arena is primed, `prepare_elt` calls `bxfi_arena_prepare(elt->handle)` and
drops its result, and `bxfi_context_prepare` returns 0, although a step of it
failed. -/
theorem prepare_drops_nested_priming_failure :
    bxf_context_addarena fresh_context unprimable_arena
        = (0, { arena := { self := 4096, handle := 3, flags := 5, avail := 65512,
                           chunks := [.bxfi_ctx_arena 1 13 0] } })
      ∧ (example_platform 4096 false fresh_context.arena).bxfi_arena_prepare 13 = -9
      ∧ bxfi_context_prepare (example_platform 4096 false fresh_context.arena) host_mem
          (bxf_context_addarena fresh_context unprimable_arena).2
        = (0, (bxf_context_addarena fresh_context unprimable_arena).2, [3, 13]) := by
  decide

/-- C10, as stated, fails (by design of `bxfi_context_prepare`, which returns
the error of priming the backing arena before it visits any element). In
`unprimable_context` position 2 holds the first Static element whose
descriptor fails to denormalize in the host (module "x" is not loaded; the
Static element at position 0 denormalizes to 4100), but priming the backing
arena, whose handle is 13, fails with `-9`: prepare returns `-9`, not
`-EINVAL`, and the Static element at position 0 has captured nothing of the
live bytes 42, 43 of its target. -/
theorem prepare_partial_capture_counterexample :
    unprimable_context.arena.chunks[2]? = some (.bxfi_ctx_static 0 1 [0, 120, 0])
      ∧ (example_platform 4096 false fresh_context.arena).bxfi_denormalize_addr
          { addr := 0, soname := [120, 0] } = 0
      ∧ visited (example_platform 4096 false fresh_context.arena)
          unprimable_context.arena.chunks
        = [.bxfi_ctx_static 4 2 [0, 0, 109, 0], .bxfi_ctx_arena 0 11 0]
      ∧ (example_platform 4096 false fresh_context.arena).bxfi_denormalize_addr
          { addr := 4, soname := [109, 0] } = 4100
      ∧ mem_read host_mem 4100 2 = [42, 43]
      ∧ (example_platform 4096 false fresh_context.arena).bxfi_arena_prepare
          unprimable_context.arena.handle = -9
      ∧ (bxfi_context_prepare (example_platform 4096 false fresh_context.arena) host_mem
          unprimable_context).1 = -9
      ∧ (bxfi_context_prepare (example_platform 4096 false fresh_context.arena) host_mem
          unprimable_context).1 ≠ -EINVAL
      ∧ (bxfi_context_prepare (example_platform 4096 false fresh_context.arena) host_mem
          unprimable_context).2.1.arena.chunks[0]?
        = some (.bxfi_ctx_static 4 2 [0, 0, 109, 0])
      ∧ (bxfi_context_prepare (example_platform 4096 false fresh_context.arena) host_mem
          unprimable_context).2.1 = unprimable_context := by
  decide

/-- C10, amended. Prepare partial capture. Let priming the backing arena not
fail, and let position `k` hold the first Static element whose descriptor
fails to denormalize in the host. Then `bxfi_context_prepare` returns `-EINVAL`; the
chunks before `k` are the captures of what they were (a Static element holds
in its payload the `size` live bytes of its target, its address, size and
module name unchanged; the other kinds are unchanged), the chunks at and after
`k` are what they were, and the only handles primed are the backing one and
those of the Arena elements before `k`. -/
theorem prepare_partial_capture (P : Platform) (m : Mem) (ctx : bxf_context)
    (k addr size : Nat) (data : List Nat)
    (hprime : 0 ≤ P.bxfi_arena_prepare ctx.arena.handle)
    (hk : ctx.arena.chunks[k]? = some (.bxfi_ctx_static addr size data))
    (hfail : P.bxfi_denormalize_addr { addr := addr, soname := data.drop size } = 0)
    (hfirst : ∀ j : Nat, j < k → ∀ a s d, ctx.arena.chunks[j]? = some (.bxfi_ctx_static a s d) →
      P.bxfi_denormalize_addr { addr := a, soname := d.drop s } ≠ 0) :
    (bxfi_context_prepare P m ctx).1 = -EINVAL
      ∧ (bxfi_context_prepare P m ctx).2.1.arena.chunks
          = (ctx.arena.chunks.take k).map (capture P m) ++ ctx.arena.chunks.drop k
      ∧ (∀ j : Nat, j < k → ∀ a s d, ctx.arena.chunks[j]? = some (.bxfi_ctx_static a s d) →
          ∃ d1, (bxfi_context_prepare P m ctx).2.1.arena.chunks[j]?
              = some (.bxfi_ctx_static a s d1)
            ∧ d1.take s
              = mem_read m (P.bxfi_denormalize_addr { addr := a, soname := d.drop s }) s
            ∧ d1.drop s = d.drop s)
      ∧ (∀ j : Nat, k ≤ j →
          (bxfi_context_prepare P m ctx).2.1.arena.chunks[j]? = ctx.arena.chunks[j]?)
      ∧ (bxfi_context_prepare P m ctx).2.2
          = ctx.arena.handle :: nested_handles (ctx.arena.chunks.take k) := by
  have hsplit := split_at_position ctx.arena.chunks k _ hk
  have hok := not_fails_of_first P ctx.arena.chunks k hfirst
  have hbad : fails P (.bxfi_ctx_static addr size data) = true := by
    rw [fails_static]
    simp [hfail]
  have hit := iter_prepare_fail P m (ctx.arena.chunks.take k) (ctx.arena.chunks.drop (k + 1)) _ 0
    [ctx.arena.handle] hok hbad
  rw [← hsplit] at hit
  have hdrop : ctx.arena.chunks.drop k
      = .bxfi_ctx_static addr size data :: ctx.arena.chunks.drop (k + 1) := by
    have h1 := congrArg (List.drop k) hsplit
    have hlen : (ctx.arena.chunks.take k).length = k := by
      have h2 := (List.getElem?_eq_some.mp hk).1
      simp only [List.length_take]
      omega
    rw [List.drop_append_of_le_length (by omega)] at h1
    rw [h1, List.drop_of_length_le (by omega)]
    rfl
  have hn : ¬ P.bxfi_arena_prepare ctx.arena.handle < 0 := by omega
  have hres : bxfi_context_prepare P m ctx
      = (-EINVAL,
          { ctx with arena := { ctx.arena with
              chunks := (ctx.arena.chunks.take k).map (capture P m) ++ ctx.arena.chunks.drop k } },
          ctx.arena.handle :: nested_handles (ctx.arena.chunks.take k)) := by
    simp only [bxfi_context_prepare, hn, if_false, bxf_arena_iter, hit, hdrop]
    rfl
  rw [hres]
  have hlen : ((ctx.arena.chunks.take k).map (capture P m)).length = k := by
    have h2 := (List.getElem?_eq_some.mp hk).1
    simp only [List.length_map, List.length_take]
    omega
  refine ⟨rfl, rfl, ?_, ?_, rfl⟩
  · intro j hj a s d hjx
    refine ⟨mem_read m (P.bxfi_denormalize_addr { addr := a, soname := d.drop s }) s
      ++ d.drop s, ?_, ?_, ?_⟩
    · show ((ctx.arena.chunks.take k).map (capture P m) ++ ctx.arena.chunks.drop k)[j]? = _
      rw [List.getElem?_append_left (by omega), List.getElem?_map,
        List.getElem?_take_of_lt hj, hjx]
      rfl
    · rw [List.take_left' (length_mem_read _ _ _)]
    · rw [List.drop_left' (length_mem_read _ _ _)]
  · intro j hj
    show ((ctx.arena.chunks.take k).map (capture P m) ++ ctx.arena.chunks.drop k)[j]? = _
    rw [List.getElem?_append_right (by omega), hlen, List.getElem?_drop]
    congr 1
    omega

/-- C10 amended, an instance: in `host_context`, prepared while module "x" is not
loaded, position 2 holds the first Static element that fails to denormalize;
prepare returns `-EINVAL`, position 0 holds the live bytes 42, 43, the
positions 2 to 4 are as they were (position 4 has captured nothing), and only
the handles 3 and 11 were primed. -/
theorem prepare_partial_capture_witness :
    0 ≤ (example_platform 4096 false fresh_context.arena).bxfi_arena_prepare
          host_context.arena.handle
      ∧ host_context.arena.chunks[2]? = some (.bxfi_ctx_static 0 1 [0, 120, 0])
      ∧ (bxfi_context_prepare (example_platform 4096 false fresh_context.arena) host_mem
          host_context).1 = -EINVAL
      ∧ (bxfi_context_prepare (example_platform 4096 false fresh_context.arena) host_mem
          host_context).2.1.arena.chunks
          = [.bxfi_ctx_static 4 2 [42, 43, 109, 0], .bxfi_ctx_arena 0 11 0,
             .bxfi_ctx_static 0 1 [0, 120, 0], .bxfi_ctx_arena 0 12 0,
             .bxfi_ctx_static 6 1 [0, 109, 0]]
      ∧ (bxfi_context_prepare (example_platform 4096 false fresh_context.arena) host_mem
          host_context).2.2 = [3, 11] := by
  have h := prepare_partial_capture (example_platform 4096 false fresh_context.arena) host_mem
    host_context 2 0 1 [0, 120, 0] (by decide) rfl (by decide)
    (by
      intro j hj a s d hjx
      have hj2 : j = 0 ∨ j = 1 := by omega
      rcases hj2 with rfl | rfl
      · simp only [host_context, List.getElem?_cons_zero, Option.some.injEq,
          Elt.bxfi_ctx_static.injEq] at hjx
        rcases hjx with ⟨rfl, rfl, rfl⟩
        decide
      · simp [host_context] at hjx)
  refine ⟨by decide, rfl, h.1, ?_, ?_⟩
  · rw [h.2.1]
    decide
  · rw [h.2.2.2.2]
    decide

/-! ## Facts relating capture and transplant -/

theorem first_failure (Q : Platform) (es : List Elt) :
    (∀ e ∈ es, fails Q e = false)
      ∨ ∃ es1 e es2, es = es1 ++ e :: es2 ∧ (∀ x ∈ es1, fails Q x = false) ∧ fails Q e = true := by
  induction es with
  | nil => left; simp
  | cons y ys ih =>
    by_cases hy : fails Q y = true
    · right
      exact ⟨[], y, ys, rfl, by simp, hy⟩
    · have hy1 : fails Q y = false := by simpa using hy
      rcases ih with h | ⟨es1, e, es2, h1, h2, h3⟩
      · left
        intro e he
        rcases List.mem_cons.mp he with rfl | he
        · exact hy1
        · exact h e he
      · right
        refine ⟨y :: es1, e, es2, by simp [h1], ?_, h3⟩
        intro x hx
        rcases List.mem_cons.mp hx with rfl | hx
        · exact hy1
        · exact h2 x hx

theorem iter_inherit_zero (Q : Platform) (es : List Elt) (p : Nat) (w : Participant)
    (h : (iter_chunks (inherit_elt Q) p es w).1 = 0) : ∀ e ∈ es, fails Q e = false := by
  rcases first_failure Q es with h1 | ⟨es1, e, es2, h1, h2, h3⟩
  · exact h1
  · rw [h1, iter_inherit_fail Q es1 es2 e p w h2 h3] at h
    have h4 : (-EINVAL : Int) ≠ 0 := by decide
    exact absurd h h4

theorem iter_prepare_zero (P : Platform) (m : Mem) (es : List Elt) (p : Nat)
    (primed : List Nat) (h : (iter_chunks (prepare_elt P m) p es primed).1 = 0) :
    ∀ e ∈ es, fails P e = false := by
  rcases first_failure P es with h1 | ⟨es1, e, es2, h1, h2, h3⟩
  · exact h1
  · rw [h1, iter_prepare_fail P m es1 es2 e p primed h2 h3] at h
    have h4 : (-EINVAL : Int) ≠ 0 := by decide
    exact absurd h h4

theorem prepare_ok (P : Platform) (m : Mem) (ctx : bxf_context)
    (hprime : 0 ≤ P.bxfi_arena_prepare ctx.arena.handle)
    (h : ∀ e ∈ ctx.arena.chunks, fails P e = false) :
    bxfi_context_prepare P m ctx
      = (0, { ctx with arena := { ctx.arena with chunks := ctx.arena.chunks.map (capture P m) } },
          ctx.arena.handle :: nested_handles ctx.arena.chunks) := by
  have hn : ¬ P.bxfi_arena_prepare ctx.arena.handle < 0 := by omega
  simp only [bxfi_context_prepare, hn, if_false, bxf_arena_iter,
    iter_prepare_ok P m ctx.arena.chunks 0 [ctx.arena.handle] h]
  rfl

theorem prepare_zero (P : Platform) (m : Mem) (ctx : bxf_context)
    (h : (bxfi_context_prepare P m ctx).1 = 0) :
    0 ≤ P.bxfi_arena_prepare ctx.arena.handle ∧ ∀ e ∈ ctx.arena.chunks, fails P e = false := by
  by_cases hn : P.bxfi_arena_prepare ctx.arena.handle < 0
  · simp only [bxfi_context_prepare, hn, if_true] at h
    omega
  · refine ⟨by omega, ?_⟩
    simp only [bxfi_context_prepare, hn, if_false, bxf_arena_iter] at h
    exact iter_prepare_zero P m ctx.arena.chunks 0 [ctx.arena.handle] h

theorem inherit_ok (Q : Platform) (hndl : Nat) (w : Participant) (rc : Int)
    (arena : bxf_arena_s) (hbind : Q.bxfi_arena_inherit hndl 0 0 = (rc, arena)) (hrc : 0 ≤ rc)
    (h : ∀ e ∈ arena.chunks, fails Q e = false) :
    bxfi_context_inherit Q hndl w
      = (0, { arena with chunks := arena.chunks },
          { mem := transplants Q arena.chunks w.mem,
            bound := w.bound ++ [(hndl, 0, 0)] ++ nested_binds arena.chunks }) := by
  have hn : ¬ rc < 0 := by omega
  simp only [bxfi_context_inherit, hbind, hn, if_false, bxf_arena_iter,
    iter_inherit_ok Q arena.chunks 0 _ h]

theorem inherit_zero (Q : Platform) (hndl : Nat) (w : Participant) (rc : Int)
    (arena : bxf_arena_s) (hbind : Q.bxfi_arena_inherit hndl 0 0 = (rc, arena)) (hrc : 0 ≤ rc)
    (h : (bxfi_context_inherit Q hndl w).1 = 0) : ∀ e ∈ arena.chunks, fails Q e = false := by
  have hn : ¬ rc < 0 := by omega
  simp only [bxfi_context_inherit, hbind, hn, if_false, bxf_arena_iter] at h
  exact iter_inherit_zero Q arena.chunks 0 _ h

theorem target_capture (P Q : Platform) (m : Mem) (e : Elt) :
    (capture P m e).target Q = e.target Q := by
  cases e with
  | bxfi_ctx_static a s d =>
    simp only [capture, Elt.target]
    rw [List.drop_left' (length_mem_read _ _ _)]
  | bxfi_ctx_arena flags handle base => rfl
  | bxfi_ctx_object namesz data => rfl

theorem fails_capture (P Q : Platform) (m : Mem) (e : Elt) :
    fails Q (capture P m e) = fails Q e := by
  simp only [fails, target_capture]

theorem transplant_capture_static (P : Platform) (m1 m : Mem) (a s : Nat) (d : List Nat)
    (x : Nat) :
    transplant P m (capture P m1 (.bxfi_ctx_static a s d)) x
      = if P.bxfi_denormalize_addr { addr := a, soname := d.drop s } ≤ x
          ∧ x < P.bxfi_denormalize_addr { addr := a, soname := d.drop s } + s
        then m1 x else m x := by
  simp only [capture, transplant]
  rw [List.drop_left' (length_mem_read _ _ _), List.take_left' (length_mem_read _ _ _)]
  simp only [mem_write, length_mem_read]
  split
  · rename_i h
    rw [getD_mem_read _ _ _ _ (by omega)]
    congr 1
    omega
  · rfl

theorem transplants_capture (P : Platform) (m1 : Mem) (es : List Elt) (m : Mem) (x : Nat) :
    transplants P (es.map (capture P m1)) m x = m1 x
      ∨ (transplants P (es.map (capture P m1)) m x = m x
          ∧ ∀ a s d, .bxfi_ctx_static a s d ∈ es →
              ¬ (P.bxfi_denormalize_addr { addr := a, soname := d.drop s } ≤ x
                  ∧ x < P.bxfi_denormalize_addr { addr := a, soname := d.drop s } + s)) := by
  induction es generalizing m with
  | nil =>
    right
    exact ⟨rfl, by simp⟩
  | cons e es ih =>
    simp only [List.map_cons, transplants]
    rcases ih (transplant P m (capture P m1 e)) with h | ⟨h1, h2⟩
    · left
      exact h
    · cases e with
      | bxfi_ctx_static a s d =>
        rw [h1, transplant_capture_static]
        by_cases hc : P.bxfi_denormalize_addr { addr := a, soname := d.drop s } ≤ x
            ∧ x < P.bxfi_denormalize_addr { addr := a, soname := d.drop s } + s
        · left
          simp only [hc, and_self, if_true]
        · right
          refine ⟨by simp only [hc, if_false], ?_⟩
          intro a1 s1 d1 hmem
          rcases List.mem_cons.mp hmem with heq | hmem
          · simp only [Elt.bxfi_ctx_static.injEq] at heq
            rcases heq with ⟨rfl, rfl, rfl⟩
            exact hc
          · exact h2 a1 s1 d1 hmem
      | bxfi_ctx_arena flags handle base =>
        right
        refine ⟨h1, ?_⟩
        intro a1 s1 d1 hmem
        rcases List.mem_cons.mp hmem with heq | hmem
        · exact absurd heq (by simp)
        · exact h2 a1 s1 d1 hmem
      | bxfi_ctx_object namesz data =>
        right
        refine ⟨h1, ?_⟩
        intro a1 s1 d1 hmem
        rcases List.mem_cons.mp hmem with heq | hmem
        · exact absurd heq (by simp)
        · exact h2 a1 s1 d1 hmem

theorem not_fails_of_all (Q : Platform) (es : List Elt)
    (hden : ∀ a s d, .bxfi_ctx_static a s d ∈ es →
      Q.bxfi_denormalize_addr { addr := a, soname := d.drop s } ≠ 0) :
    ∀ e ∈ es, fails Q e = false := by
  intro e he
  cases e with
  | bxfi_ctx_static a s d =>
    rw [fails_static]
    simpa using hden a s d he
  | bxfi_ctx_arena flags handle base => simp [fails, Elt.target]
  | bxfi_ctx_object namesz data => simp [fails, Elt.target]

/-- C3. Same-process prepare / inherit round trip. Let every Static descriptor
of the context denormalize, let priming the backing arena succeed, and let the
handle bind to the arena as prepare left it. If prepare runs while the memory
is `m1` and inherit then runs, with the same platform, from any memory
`w.mem`, then both return 0 and in the resulting memory every byte of the
target range of every Static element holds the value it had in `m1`,
overlapping ranges included; and when the starting memory is `m1`, the
resulting memory is `m1`. -/
theorem prepare_inherit_round_trip (P : Platform) (ctx : bxf_context) (m1 : Mem)
    (w : Participant) (hndl : Nat) (rcb : Int)
    (hden : ∀ a s d, .bxfi_ctx_static a s d ∈ ctx.arena.chunks →
      P.bxfi_denormalize_addr { addr := a, soname := d.drop s } ≠ 0)
    (hprime : 0 ≤ P.bxfi_arena_prepare ctx.arena.handle)
    (hbind : P.bxfi_arena_inherit hndl 0 0 = (rcb, (bxfi_context_prepare P m1 ctx).2.1.arena))
    (hrcb : 0 ≤ rcb) :
    (bxfi_context_prepare P m1 ctx).1 = 0
      ∧ (bxfi_context_inherit P hndl w).1 = 0
      ∧ (∀ a s d, .bxfi_ctx_static a s d ∈ ctx.arena.chunks → ∀ i : Nat, i < s →
          (bxfi_context_inherit P hndl w).2.2.mem
              (P.bxfi_denormalize_addr { addr := a, soname := d.drop s } + i)
            = m1 (P.bxfi_denormalize_addr { addr := a, soname := d.drop s } + i))
      ∧ ((∀ x, w.mem x = m1 x) → ∀ x, (bxfi_context_inherit P hndl w).2.2.mem x = m1 x) := by
  have hok := not_fails_of_all P ctx.arena.chunks hden
  have hprep := prepare_ok P m1 ctx hprime hok
  rw [hprep] at hbind
  simp only at hbind
  have hok2 : ∀ e ∈ ctx.arena.chunks.map (capture P m1), fails P e = false := by
    intro e he
    rcases List.mem_map.mp he with ⟨e0, he0, rfl⟩
    rw [fails_capture]
    exact hok e0 he0
  have hinh := inherit_ok P hndl w rcb _ hbind hrcb hok2
  rw [hprep, hinh]
  refine ⟨rfl, rfl, ?_, ?_⟩
  · intro a s d hmem i hi
    show transplants P (ctx.arena.chunks.map (capture P m1)) w.mem _ = _
    rcases transplants_capture P m1 ctx.arena.chunks w.mem
      (P.bxfi_denormalize_addr { addr := a, soname := d.drop s } + i) with h | ⟨_, h2⟩
    · exact h
    · exact absurd ⟨by omega, by omega⟩ (h2 a s d hmem)
  · intro hsame x
    show transplants P (ctx.arena.chunks.map (capture P m1)) w.mem x = _
    rcases transplants_capture P m1 ctx.arena.chunks w.mem x with h | ⟨h1, _⟩
    · exact h
    · rw [h1, hsame x]

/-- C3, an instance: `overlapping_context` prepared in `host_mem`, then
inherited in the same process from a memory of zero bytes: the overlapping
targets 4100..4101 and 4101..4102 read 42, 43, 44 as in `host_mem`, and the
byte 4103 outside them is still 0. -/
theorem prepare_inherit_round_trip_witness :
    (example_platform 4096 false prepared_arena).bxfi_arena_inherit 3 0 0
        = (0, (bxfi_context_prepare (example_platform 4096 false prepared_arena) host_mem
            overlapping_context).2.1.arena)
      ∧ (bxfi_context_prepare (example_platform 4096 false prepared_arena) host_mem
          overlapping_context).1 = 0
      ∧ (bxfi_context_inherit (example_platform 4096 false prepared_arena) 3
          blank_participant).1 = 0
      ∧ (bxfi_context_inherit (example_platform 4096 false prepared_arena) 3
          blank_participant).2.2.mem 4100 = 42
      ∧ (bxfi_context_inherit (example_platform 4096 false prepared_arena) 3
          blank_participant).2.2.mem 4101 = 43
      ∧ (bxfi_context_inherit (example_platform 4096 false prepared_arena) 3
          blank_participant).2.2.mem 4102 = 44
      ∧ (bxfi_context_inherit (example_platform 4096 false prepared_arena) 3
          blank_participant).2.2.mem 4103 = 0 := by
  have h := prepare_inherit_round_trip (example_platform 4096 false prepared_arena)
    overlapping_context host_mem blank_participant 3 0
    (by
      intro a s d hmem
      simp only [overlapping_context, List.mem_cons, Elt.bxfi_ctx_static.injEq,
        List.mem_singleton, reduceCtorEq, false_or, List.not_mem_nil, or_false] at hmem
      rcases hmem with ⟨rfl, rfl, rfl⟩ | ⟨rfl, rfl, rfl⟩ <;> decide)
    (by decide) (by decide) (by decide)
  refine ⟨by decide, h.1, h.2.1, ?_, ?_, ?_, by decide⟩
  · exact h.2.2.1 4 2 [0, 0, 109, 0] (by decide) 0 (by decide)
  · exact h.2.2.1 4 2 [0, 0, 109, 0] (by decide) 1 (by decide)
  · exact h.2.2.1 5 2 [0, 0, 109, 0] (by decide) 1 (by decide)

/-- C2. Freshness. Let `bxf_context_addstatic(ctx0, ptr, size)` succeed, with
`d` the descriptor the normalizer gave, let any further successful calls
follow, and let `bxfi_context_prepare` succeed while the host memory is `m1`.
(a) The call reads no memory (the function has no memory among its inputs):
the element it appended holds its address, its size, `size` payload bytes as
the allocator delivered them and the module name. (b) After prepare the
descriptor denormalizes and the payload of that element is the `size` bytes of
`m1` at the denormalized address, the module name following it unchanged.
(c) `inherit_elt` on that element, on a platform `Q` where the descriptor
denormalizes, writes exactly those bytes of `m1` to the target; and after a
successful `bxfi_context_inherit` on the prepared arena the target holds them,
provided no later element was transplanted over it. -/
theorem freshness (P Q : Platform) (ctx0 ctx1 ctx2 : bxf_context) (ptr size : Nat) (rcn : Int)
    (d : bxfi_addr) (calls : List Call) (m1 : Mem)
    (hnorm : P.bxfi_normalize_addr ptr = (rcn, d))
    (hadd : bxf_context_addstatic P ctx0 ptr size = (0, ctx1))
    (hbuild : build P calls ctx1 = some ctx2)
    (hprep : (bxfi_context_prepare P m1 ctx2).1 = 0) :
    ctx2.arena.chunks[ctx0.arena.chunks.length]?
        = some (.bxfi_ctx_static d.addr size (List.replicate size 0 ++ (cstr d.soname ++ [0])))
      ∧ P.bxfi_denormalize_addr { addr := d.addr, soname := cstr d.soname ++ [0] } ≠ 0
      ∧ (bxfi_context_prepare P m1 ctx2).2.1.arena.chunks[ctx0.arena.chunks.length]?
        = some (.bxfi_ctx_static d.addr size
            (mem_read m1
                (P.bxfi_denormalize_addr { addr := d.addr, soname := cstr d.soname ++ [0] }) size
              ++ (cstr d.soname ++ [0])))
      ∧ (∀ (p sz : Nat) (w : Participant),
          Q.bxfi_denormalize_addr { addr := d.addr, soname := cstr d.soname ++ [0] } ≠ 0 →
          (inherit_elt Q p (.bxfi_ctx_static d.addr size
            (mem_read m1
                (P.bxfi_denormalize_addr { addr := d.addr, soname := cstr d.soname ++ [0] }) size
              ++ (cstr d.soname ++ [0]))) sz w).1 = 0
          ∧ ∀ j : Nat, j < size →
            (inherit_elt Q p (.bxfi_ctx_static d.addr size
              (mem_read m1
                  (P.bxfi_denormalize_addr { addr := d.addr, soname := cstr d.soname ++ [0] })
                  size
                ++ (cstr d.soname ++ [0]))) sz w).2.2.mem
                (Q.bxfi_denormalize_addr { addr := d.addr, soname := cstr d.soname ++ [0] } + j)
              = m1 (P.bxfi_denormalize_addr { addr := d.addr, soname := cstr d.soname ++ [0] }
                  + j))
      ∧ (∀ (hndl : Nat) (rcb : Int) (w : Participant),
          Q.bxfi_arena_inherit hndl 0 0 = (rcb, (bxfi_context_prepare P m1 ctx2).2.1.arena) →
          0 ≤ rcb →
          (bxfi_context_inherit Q hndl w).1 = 0 →
          (∀ e ∈ (bxfi_context_prepare P m1 ctx2).2.1.arena.chunks.drop
                (ctx0.arena.chunks.length + 1),
            ∀ j : Nat, j < size → ¬ covers Q e
              (Q.bxfi_denormalize_addr { addr := d.addr, soname := cstr d.soname ++ [0] } + j)) →
          ∀ j : Nat, j < size →
            (bxfi_context_inherit Q hndl w).2.2.mem
                (Q.bxfi_denormalize_addr { addr := d.addr, soname := cstr d.soname ++ [0] } + j)
              = m1 (P.bxfi_denormalize_addr { addr := d.addr, soname := cstr d.soname ++ [0] }
                  + j)) := by
  have hc1 := addstatic_chunks P ctx0 ctx1 ptr size hadd
  have hc2 := build_chunks P calls ctx1 ctx2 hbuild
  have helt : (Call.addstatic ptr size).elt P
      = .bxfi_ctx_static d.addr size (List.replicate size 0 ++ (cstr d.soname ++ [0])) := by
    simp only [Call.elt, hnorm]
  rw [hc1, helt] at hc2
  have hat : ctx2.arena.chunks[ctx0.arena.chunks.length]?
      = some (.bxfi_ctx_static d.addr size (List.replicate size 0 ++ (cstr d.soname ++ [0]))) := by
    rw [hc2, List.append_assoc, List.getElem?_append_right (by omega)]
    simp
  rcases prepare_zero P m1 ctx2 hprep with ⟨hprime, hok⟩
  have hres := prepare_ok P m1 ctx2 hprime hok
  have hmem : Elt.bxfi_ctx_static d.addr size (List.replicate size 0 ++ (cstr d.soname ++ [0]))
      ∈ ctx2.arena.chunks := by
    rw [hc2]
    simp
  have hdrop : (List.replicate size 0 ++ (cstr d.soname ++ [0])).drop size
      = cstr d.soname ++ [0] := List.drop_left' (by simp)
  have ht : P.bxfi_denormalize_addr { addr := d.addr, soname := cstr d.soname ++ [0] } ≠ 0 := by
    have h1 := hok _ hmem
    rw [fails_static, hdrop] at h1
    simpa using h1
  have hcap : (bxfi_context_prepare P m1 ctx2).2.1.arena.chunks[ctx0.arena.chunks.length]?
      = some (.bxfi_ctx_static d.addr size
          (mem_read m1
              (P.bxfi_denormalize_addr { addr := d.addr, soname := cstr d.soname ++ [0] }) size
            ++ (cstr d.soname ++ [0]))) := by
    rw [hres]
    show (ctx2.arena.chunks.map (capture P m1))[ctx0.arena.chunks.length]? = _
    rw [List.getElem?_map, hat]
    simp only [Option.map_some', capture, hdrop]
  have hdrop2 : (mem_read m1
        (P.bxfi_denormalize_addr { addr := d.addr, soname := cstr d.soname ++ [0] }) size
      ++ (cstr d.soname ++ [0])).drop size = cstr d.soname ++ [0] :=
    List.drop_left' (length_mem_read _ _ _)
  have htake2 : (mem_read m1
        (P.bxfi_denormalize_addr { addr := d.addr, soname := cstr d.soname ++ [0] }) size
      ++ (cstr d.soname ++ [0])).take size
      = mem_read m1
        (P.bxfi_denormalize_addr { addr := d.addr, soname := cstr d.soname ++ [0] }) size :=
    List.take_left' (length_mem_read _ _ _)
  have hwrite : ∀ (m : Mem) (j : Nat), j < size →
      transplant Q m (.bxfi_ctx_static d.addr size
        (mem_read m1
            (P.bxfi_denormalize_addr { addr := d.addr, soname := cstr d.soname ++ [0] }) size
          ++ (cstr d.soname ++ [0])))
          (Q.bxfi_denormalize_addr { addr := d.addr, soname := cstr d.soname ++ [0] } + j)
        = m1 (P.bxfi_denormalize_addr { addr := d.addr, soname := cstr d.soname ++ [0] } + j) := by
    intro m j hj
    simp only [transplant, hdrop2, htake2]
    rw [mem_write_inside _ _ _ _ (by rw [length_mem_read]; exact hj),
      getD_mem_read _ _ _ _ hj]
  refine ⟨hat, ht, hcap, ?_, ?_⟩
  · intro p sz w hu
    have hnf : fails Q (.bxfi_ctx_static d.addr size
        (mem_read m1
            (P.bxfi_denormalize_addr { addr := d.addr, soname := cstr d.soname ++ [0] }) size
          ++ (cstr d.soname ++ [0]))) = false := by
      rw [fails_static, hdrop2]
      simpa using hu
    rw [inherit_elt_ok Q p _ sz w hnf]
    exact ⟨rfl, fun j hj => hwrite w.mem j hj⟩
  · intro hndl rcb w hbind hrcb hzero hlater j hj
    have hall := inherit_zero Q hndl w rcb _ hbind hrcb hzero
    rw [inherit_ok Q hndl w rcb _ hbind hrcb hall]
    have hsp := split_at_position _ _ _ hcap
    show transplants Q (bxfi_context_prepare P m1 ctx2).2.1.arena.chunks w.mem _ = _
    rw [hsp, transplants_append, transplants,
      transplants_outside Q _ _ _ (fun e he => hlater e he j hj)]
    exact hwrite _ j hj

/-- C2, the example of the specification: `counter` is registered by
`bxf_context_addstatic` (whatever it holds then, 42 say), holds 7 when
`bxfi_context_prepare` runs, and the participant, whose own `counter` holds
42 at another address, reads 7 after `bxfi_context_inherit`. -/
theorem freshness_witness :
    bxf_context_addstatic (example_platform 4096 false fresh_context.arena) fresh_context 4100 4
        = (0, counter_context)
      ∧ (bxfi_context_prepare (example_platform 4096 false fresh_context.arena)
          (counter_mem 4100 7) counter_context).1 = 0
      ∧ (bxfi_context_prepare (example_platform 4096 false fresh_context.arena)
          (counter_mem 4100 7) counter_context).2.1.arena.chunks
        = [.bxfi_ctx_static 4 4 [7, 0, 0, 0, 109, 0]]
      ∧ stale_participant.mem 20484 = 42
      ∧ (bxfi_context_inherit (example_platform 20480 false counter_arena) 3
          stale_participant).2.2.mem 20484 = 7 := by
  have h := freshness (example_platform 4096 false fresh_context.arena)
    (example_platform 20480 false counter_arena) fresh_context counter_context counter_context
    4100 4 0 { addr := 4, soname := [109, 0] } [] (counter_mem 4100 7)
    (by decide) (by decide) rfl (by decide)
  refine ⟨by decide, by decide, by decide, by decide, ?_⟩
  exact h.2.2.2.2 3 0 stale_participant (by decide) (by decide) (by decide)
    (by
      intro e he
      have hnil : (bxfi_context_prepare (example_platform 4096 false fresh_context.arena)
          (counter_mem 4100 7) counter_context).2.1.arena.chunks.drop
            (fresh_context.arena.chunks.length + 1) = [] := by decide
      rw [hnil] at he
      exact absurd he (List.not_mem_nil e))
    0 (by decide)

/-! ## The context store: failures of the add operations -/

theorem addstatic_ok (P : Platform) (ctx : bxf_context) (ptr size : Nat)
    (hn : ¬ (P.bxfi_normalize_addr ptr).1 < 0)
    (ha : ¬ (bxf_arena_alloc ctx.arena
      (sizeof_static + size + strlen (P.bxfi_normalize_addr ptr).2.soname + 1)).1 < 0) :
    bxf_context_addstatic P ctx ptr size
      = (0, { ctx with arena :=
          { ctx.arena with
            avail := ctx.arena.avail
              - static_request size (P.bxfi_normalize_addr ptr).2.soname,
            chunks := ctx.arena.chunks ++ [(Call.addstatic ptr size).elt P],
            overrun :=
              if sizeof_static + size + strlen (P.bxfi_normalize_addr ptr).2.soname + 1 ≤ SIZE_MAX
                then ctx.arena.overrun else true } }) :=
  addstatic_eq P ctx ptr size hn
    (alloc_mono ctx.arena _ _ (static_request_le size _) ha)

theorem addarena_alloc_fail (ctx : bxf_context) (arena : bxf_arena_s)
    (ha : (bxf_arena_alloc ctx.arena sizeof_arena).1 < 0) :
    bxf_context_addarena ctx arena = (-ENOMEM, ctx) := by
  have hf := alloc_fail _ _ ha
  unfold bxf_context_addarena
  have hneg : (-ENOMEM : Int) < 0 := by decide
  simp only [hf, hneg, if_true]

theorem addobject_alloc_fail (ctx : bxf_context) (name bytes : List Nat)
    (ha : (bxf_arena_alloc ctx.arena (sizeof_object + (strlen name + 1) + bytes.length)).1 < 0) :
    bxf_context_addobject ctx name bytes = (-ENOMEM, ctx) := by
  have hf := alloc_fail _ _ ha
  unfold bxf_context_addobject
  have hneg : (-ENOMEM : Int) < 0 := by decide
  simp only [hf, hneg, if_true]

/-- C11. `bxf_context_addstatic` rejects unresolvable addresses atomically: if
the normalizer fails (negative result) the call returns that result and the
context is what it was (no allocation: even the room left in the arena is
unchanged, and the element sequence is the same); if the normalizer succeeds
and the allocation succeeds, the call returns 0 and the element sequence is
the former one followed by exactly one Static element, which holds the
normalized offset, the size and the module name. -/
theorem addstatic_rejects_atomically (P : Platform) (ctx : bxf_context) (ptr size : Nat) :
    ((P.bxfi_normalize_addr ptr).1 < 0 →
        bxf_context_addstatic P ctx ptr size = ((P.bxfi_normalize_addr ptr).1, ctx)
          ∧ (bxf_context_addstatic P ctx ptr size).2.arena.chunks = ctx.arena.chunks
          ∧ (bxf_context_addstatic P ctx ptr size).2.arena.avail = ctx.arena.avail)
      ∧ (¬ (P.bxfi_normalize_addr ptr).1 < 0 →
          ¬ (bxf_arena_alloc ctx.arena
            (sizeof_static + size + strlen (P.bxfi_normalize_addr ptr).2.soname + 1)).1 < 0 →
          (bxf_context_addstatic P ctx ptr size).1 = 0
            ∧ (bxf_context_addstatic P ctx ptr size).2.arena.chunks
              = ctx.arena.chunks ++ [.bxfi_ctx_static (P.bxfi_normalize_addr ptr).2.addr size
                  (List.replicate size 0
                    ++ (cstr (P.bxfi_normalize_addr ptr).2.soname ++ [0]))]) := by
  refine ⟨?_, ?_⟩
  · intro h
    rw [addstatic_normalize_fail P ctx ptr size h]
    exact ⟨rfl, rfl, rfl⟩
  · intro hn ha
    rw [addstatic_ok P ctx ptr size hn ha]
    exact ⟨rfl, rfl⟩

/-- C11, an instance: address 100 lies in no module of `example_platform`, the
normalizer returns `-EINVAL` and `mixed_context` is left as it was; address
4100 lies in module "m" and one Static element is appended. -/
theorem addstatic_rejects_atomically_witness :
    (example_platform 4096 false fresh_context.arena).bxfi_normalize_addr 100
        = (-EINVAL, { addr := 0, soname := [] })
      ∧ bxf_context_addstatic (example_platform 4096 false fresh_context.arena) mixed_context
          100 4 = (-EINVAL, mixed_context)
      ∧ (bxf_context_addstatic (example_platform 4096 false fresh_context.arena) mixed_context
          4100 2).1 = 0
      ∧ (bxf_context_addstatic (example_platform 4096 false fresh_context.arena) mixed_context
          4100 2).2.arena.chunks
        = mixed_context.arena.chunks ++ [.bxfi_ctx_static 4 2 [0, 0, 109, 0]] :=
  ⟨by decide,
   ((addstatic_rejects_atomically (example_platform 4096 false fresh_context.arena)
      mixed_context 100 4).1 (by decide)).1,
   ((addstatic_rejects_atomically (example_platform 4096 false fresh_context.arena)
      mixed_context 4100 2).2 (by decide) (by decide)).1,
   ((addstatic_rejects_atomically (example_platform 4096 false fresh_context.arena)
      mixed_context 4100 2).2 (by decide) (by decide)).2⟩

/-- C12. Allocation-failure isolation: for `bxf_context_addstatic` (once the
address is normalized), `bxf_context_addarena`, `bxf_context_addobject` and
`bxf_context_addfile`, if the arena allocation the call makes fails (negative
result; for `bxf_context_addstatic` the request is the one computed in
`size_t`) the call returns that negative result and the context is what it
was: no element is written, the element sequence is the same, and every
lookup by `bxf_context_getobject` gives what it gave before and finds the same
bytes in the arena. -/
theorem allocation_failure_isolation (P : Platform) (ctx : bxf_context) :
    (∀ ptr size : Nat, ¬ (P.bxfi_normalize_addr ptr).1 < 0 →
        (bxf_arena_alloc ctx.arena
          (static_request size (P.bxfi_normalize_addr ptr).2.soname)).1 < 0 →
        (bxf_context_addstatic P ctx ptr size).1 < 0
          ∧ (bxf_context_addstatic P ctx ptr size).1 = (bxf_arena_alloc ctx.arena
              (static_request size (P.bxfi_normalize_addr ptr).2.soname)).1
          ∧ (bxf_context_addstatic P ctx ptr size).2 = ctx
          ∧ (bxf_context_addstatic P ctx ptr size).2.arena.chunks = ctx.arena.chunks
          ∧ ∀ (n : List Nat) (p : Ptr) (k : Nat),
            bxf_context_getobject (bxf_context_addstatic P ctx ptr size).2 n
                = bxf_context_getobject ctx n
              ∧ load_bytes (bxf_context_addstatic P ctx ptr size).2 p k = load_bytes ctx p k)
      ∧ (∀ arena : bxf_arena_s, (bxf_arena_alloc ctx.arena sizeof_arena).1 < 0 →
        (bxf_context_addarena ctx arena).1 < 0
          ∧ (bxf_context_addarena ctx arena).1 = (bxf_arena_alloc ctx.arena sizeof_arena).1
          ∧ (bxf_context_addarena ctx arena).2 = ctx
          ∧ (bxf_context_addarena ctx arena).2.arena.chunks = ctx.arena.chunks
          ∧ ∀ (n : List Nat) (p : Ptr) (k : Nat),
            bxf_context_getobject (bxf_context_addarena ctx arena).2 n
                = bxf_context_getobject ctx n
              ∧ load_bytes (bxf_context_addarena ctx arena).2 p k = load_bytes ctx p k)
      ∧ (∀ name bytes : List Nat,
        (bxf_arena_alloc ctx.arena (sizeof_object + (strlen name + 1) + bytes.length)).1 < 0 →
        (bxf_context_addobject ctx name bytes).1 < 0
          ∧ (bxf_context_addobject ctx name bytes).1
            = (bxf_arena_alloc ctx.arena (sizeof_object + (strlen name + 1) + bytes.length)).1
          ∧ (bxf_context_addobject ctx name bytes).2 = ctx
          ∧ (bxf_context_addobject ctx name bytes).2.arena.chunks = ctx.arena.chunks
          ∧ ∀ (n : List Nat) (p : Ptr) (k : Nat),
            bxf_context_getobject (bxf_context_addobject ctx name bytes).2 n
                = bxf_context_getobject ctx n
              ∧ load_bytes (bxf_context_addobject ctx name bytes).2 p k = load_bytes ctx p k)
      ∧ (∀ (name : List Nat) (file : Nat),
        (bxf_arena_alloc ctx.arena (sizeof_object + (strlen name + 1) + 4)).1 < 0 →
        (bxf_context_addfile P ctx name file).1 < 0
          ∧ (bxf_context_addfile P ctx name file).1
            = (bxf_arena_alloc ctx.arena (sizeof_object + (strlen name + 1) + 4)).1
          ∧ (bxf_context_addfile P ctx name file).2 = ctx
          ∧ (bxf_context_addfile P ctx name file).2.arena.chunks = ctx.arena.chunks
          ∧ ∀ (n : List Nat) (p : Ptr) (k : Nat),
            bxf_context_getobject (bxf_context_addfile P ctx name file).2 n
                = bxf_context_getobject ctx n
              ∧ load_bytes (bxf_context_addfile P ctx name file).2 p k = load_bytes ctx p k) := by
  have hneg : (-ENOMEM : Int) < 0 := by decide
  refine ⟨?_, ?_, ?_, ?_⟩
  · intro ptr size hn ha
    rw [addstatic_request_fail P ctx ptr size hn ha, alloc_fail _ _ ha]
    exact ⟨hneg, rfl, rfl, rfl, fun _ _ _ => ⟨rfl, rfl⟩⟩
  · intro arena ha
    rw [addarena_alloc_fail ctx arena ha, alloc_fail _ _ ha]
    exact ⟨hneg, rfl, rfl, rfl, fun _ _ _ => ⟨rfl, rfl⟩⟩
  · intro name bytes ha
    rw [addobject_alloc_fail ctx name bytes ha, alloc_fail _ _ ha]
    exact ⟨hneg, rfl, rfl, rfl, fun _ _ _ => ⟨rfl, rfl⟩⟩
  · intro name file ha
    have hlen : (int_bytes (P.fileno file)).length = 4 := rfl
    have ha2 : (bxf_arena_alloc ctx.arena
        (sizeof_object + (strlen name + 1) + (int_bytes (P.fileno file)).length)).1 < 0 := by
      rw [hlen]
      exact ha
    unfold bxf_context_addfile
    rw [addobject_alloc_fail ctx name _ ha2, alloc_fail _ _ ha]
    exact ⟨hneg, rfl, rfl, rfl, fun _ _ _ => ⟨rfl, rfl⟩⟩

/-- C12, an instance: `full_context` can hand out 5 bytes only; each of the
four add operations fails with `-ENOMEM` and leaves it as it was, and the
Object "k" is looked up as before, its payload 1 still in place. -/
theorem allocation_failure_isolation_witness :
    bxf_context_addstatic (example_platform 4096 false fresh_context.arena) full_context 4100 4
        = (-ENOMEM, full_context)
      ∧ bxf_context_addarena full_context unprimable_arena = (-ENOMEM, full_context)
      ∧ bxf_context_addobject full_context [107, 107] [2] = (-ENOMEM, full_context)
      ∧ bxf_context_addfile (example_platform 4096 false fresh_context.arena) full_context
          [105, 110] 1005 = (-ENOMEM, full_context)
      ∧ bxf_context_getobject
          (bxf_context_addobject full_context [107, 107] [2]).2 [107]
        = bxf_context_getobject full_context [107]
      ∧ bxf_context_getobject full_context [107] = (1, some (Ptr.elt 0))
      ∧ load_bytes (bxf_context_addobject full_context [107, 107] [2]).2 (Ptr.data 0 2) 1
        = some [1] := by
  have h := allocation_failure_isolation (example_platform 4096 false fresh_context.arena)
    full_context
  have h1 := h.1 4100 4 (by decide) (by decide)
  have h2 := h.2.1 unprimable_arena (by decide)
  have h3 := h.2.2.1 [107, 107] [2] (by decide)
  have h4 := h.2.2.2 [105, 110] 1005 (by decide)
  refine ⟨?_, ?_, ?_, ?_, (h3.2.2.2.2 [107] (Ptr.data 0 2) 1).1, by decide, ?_⟩
  · exact Prod.ext (h1.2.1.trans (by decide)) h1.2.2.1
  · exact Prod.ext (h2.2.1.trans (by decide)) h2.2.2.1
  · exact Prod.ext (h3.2.1.trans (by decide)) h3.2.2.1
  · exact Prod.ext (h4.2.1.trans (by decide)) h4.2.2.1
  · rw [(h3.2.2.2.2 [107] (Ptr.data 0 2) 1).2]
    decide

theorem addarena_ok (ctx : bxf_context) (arena : bxf_arena_s)
    (ha : ¬ (bxf_arena_alloc ctx.arena sizeof_arena).1 < 0) :
    bxf_context_addarena ctx arena
      = (0, { ctx with arena :=
          { ctx.arena with
            avail := ctx.arena.avail - sizeof_arena,
            chunks := ctx.arena.chunks ++ [.bxfi_ctx_arena arena.flags arena.handle
              (if arena.flags &&& BXF_ARENA_IDENTITY ≠ 0 then arena.self else 0)] } }) := by
  have hf := alloc_ok _ _ ha
  unfold bxf_context_addarena
  have hp : ¬ ((ctx.arena.chunks.length : Int) < 0) := by omega
  simp only [hf, hp, if_false, arena_fill]

/-- C13. `bxf_context_addarena` records exactly the identity of the sub-arena:
when the allocation succeeds the call returns 0 and the element sequence is
the former one followed by one Arena element whose handle is the handle of
the sub-arena, whose flags are its flags, and whose back-reference is the
sub-arena (the address of its arena object) when its flags contain
`BXF_ARENA_IDENTITY` and null otherwise; an arena object never lying at
address 0, the back-reference is the sub-arena if and only if the flag is
set. -/
theorem addarena_records_identity (ctx : bxf_context) (a : bxf_arena_s)
    (ha : ¬ (bxf_arena_alloc ctx.arena sizeof_arena).1 < 0) :
    (bxf_context_addarena ctx a).1 = 0
      ∧ ∃ base : Nat,
        (bxf_context_addarena ctx a).2.arena.chunks
            = ctx.arena.chunks ++ [.bxfi_ctx_arena a.flags a.handle base]
          ∧ (a.flags &&& BXF_ARENA_IDENTITY ≠ 0 → base = a.self)
          ∧ (a.flags &&& BXF_ARENA_IDENTITY = 0 → base = 0)
          ∧ (a.self ≠ 0 → (base = a.self ↔ a.flags &&& BXF_ARENA_IDENTITY ≠ 0)) := by
  rw [addarena_ok ctx a ha]
  refine ⟨rfl, (if a.flags &&& BXF_ARENA_IDENTITY ≠ 0 then a.self else 0), rfl, ?_, ?_, ?_⟩
  · intro h
    simp only [h, ne_eq, not_false_eq_true, if_true]
  · intro h
    simp only [h, ne_eq, not_true_eq_false, if_false]
  · intro hs
    by_cases h : a.flags &&& BXF_ARENA_IDENTITY = 0
    · simp only [h, ne_eq, not_true_eq_false, if_false, iff_false]
      exact fun h0 => hs h0.symm
    · simp only [h, ne_eq, not_false_eq_true, if_true]

/-- C13, an instance: added to a fresh context, `identity_arena` (flags 3)
gives an Arena element with handle 14, flags 3 and back-reference 12288, and
`unprimable_arena` (flags 1, not identity) one with handle 13, flags 1 and a
null back-reference. -/
theorem addarena_records_identity_witness :
    (bxf_context_addarena fresh_context identity_arena).1 = 0
      ∧ (bxf_context_addarena fresh_context identity_arena).2.arena.chunks
        = [.bxfi_ctx_arena 3 14 12288]
      ∧ (bxf_context_addarena fresh_context unprimable_arena).2.arena.chunks
        = [.bxfi_ctx_arena 1 13 0] := by
  have h := addarena_records_identity fresh_context identity_arena (by decide)
  exact ⟨h.1, by decide, by decide⟩

/-! ## The crossing protocol: what inherit writes and binds -/

theorem visited_all (Q : Platform) (es : List Elt) (h : ∀ e ∈ es, fails Q e = false) :
    visited Q es = es := by
  unfold visited
  rw [List.takeWhile_eq_self_iff]
  intro e he
  simp [h e he]

theorem visited_split (Q : Platform) (es1 es2 : List Elt) (e : Elt)
    (h1 : ∀ x ∈ es1, fails Q x = false) (h2 : fails Q e = true) :
    visited Q (es1 ++ e :: es2) = es1 := by
  induction es1 with
  | nil => simp [visited, List.takeWhile, h2]
  | cons x xs ih =>
    have hx : fails Q x = false := h1 x (by simp)
    have hxs := ih (fun y hy => h1 y (by simp [hy]))
    unfold visited at hxs ⊢
    rw [List.cons_append, List.takeWhile_cons]
    simp only [hx, Bool.not_false, if_true, hxs]

theorem iter_inherit_visited (Q : Platform) (es : List Elt) (p : Nat) (w : Participant) :
    (iter_chunks (inherit_elt Q) p es w).2
      = (es, { mem := transplants Q (visited Q es) w.mem,
               bound := w.bound ++ nested_binds (visited Q es) }) := by
  rcases first_failure Q es with h | ⟨es1, e, es2, h1, h2, h3⟩
  · rw [iter_inherit_ok Q es p w h, visited_all Q es h]
  · rw [h1, iter_inherit_fail Q es1 es2 e p w h2 h3, visited_split Q es1 es2 e h2 h3]

theorem inherit_visited (Q : Platform) (hndl : Nat) (w : Participant)
    (h : ¬ (Q.bxfi_arena_inherit hndl 0 0).1 < 0) :
    (bxfi_context_inherit Q hndl w).2
      = ((Q.bxfi_arena_inherit hndl 0 0).2,
          { mem := transplants Q (visited Q (Q.bxfi_arena_inherit hndl 0 0).2.chunks) w.mem,
            bound := w.bound ++ [(hndl, 0, 0)]
              ++ nested_binds (visited Q (Q.bxfi_arena_inherit hndl 0 0).2.chunks) }) := by
  unfold bxfi_context_inherit
  rcases hb : Q.bxfi_arena_inherit hndl 0 0 with ⟨rc, arena⟩
  rw [hb] at h
  simp only at h
  simp only [h, if_false, bxf_arena_iter]
  have hi := iter_inherit_visited Q arena.chunks 0
    { mem := w.mem, bound := w.bound ++ [(hndl, 0, 0)] }
  rcases hr : iter_chunks (inherit_elt Q) 0 arena.chunks
    { mem := w.mem, bound := w.bound ++ [(hndl, 0, 0)] } with ⟨rc1, es1, w1⟩
  rw [hr] at hi
  simp only [Prod.mk.injEq] at hi
  rcases hi with ⟨rfl, rfl⟩
  rfl

theorem inherit_unbound (Q : Platform) (hndl : Nat) (w : Participant)
    (h : (Q.bxfi_arena_inherit hndl 0 0).1 < 0) :
    bxfi_context_inherit Q hndl w
      = ((Q.bxfi_arena_inherit hndl 0 0).1, (Q.bxfi_arena_inherit hndl 0 0).2,
          { mem := w.mem, bound := w.bound ++ [(hndl, 0, 0)] }) := by
  unfold bxfi_context_inherit
  rcases hb : Q.bxfi_arena_inherit hndl 0 0 with ⟨rc, arena⟩
  rw [hb] at h
  simp only at h
  simp only [h, if_true]

theorem not_covers_of_outside (Q : Platform) (es : List Elt) (x : Nat)
    (h : ∀ a s d, .bxfi_ctx_static a s d ∈ es →
      ¬ (Q.bxfi_denormalize_addr { addr := a, soname := d.drop s } ≤ x
          ∧ x < Q.bxfi_denormalize_addr { addr := a, soname := d.drop s } + s)) :
    ∀ e ∈ es, ¬ covers Q e x := by
  intro e he
  cases e with
  | bxfi_ctx_static a s d =>
    intro hc
    simp only [covers, List.length_take] at hc
    exact h a s d he ⟨hc.1, by omega⟩
  | bxfi_ctx_arena flags handle base => exact fun hc => hc
  | bxfi_ctx_object namesz data => exact fun hc => hc

/-- C14. Inherit write frame. Whatever the outcome of `bxfi_context_inherit`
(the handle does not bind, a Static element fails to denormalize, or success),
the memory it leaves is the initial memory with the transplants of the
elements gone through with success (`visited`) applied in order; hence every
byte that lies outside the target ranges `[denormalize(d), denormalize(d) +
size)` of the Static elements that were transplanted is unchanged; and the
visit of an Arena or of an Object element leaves the memory as it was. -/
theorem inherit_write_frame (Q : Platform) (hndl : Nat) (w : Participant) :
    ((Q.bxfi_arena_inherit hndl 0 0).1 < 0 → (bxfi_context_inherit Q hndl w).2.2.mem = w.mem)
      ∧ (¬ (Q.bxfi_arena_inherit hndl 0 0).1 < 0 →
          (bxfi_context_inherit Q hndl w).2.2.mem
            = transplants Q (visited Q (Q.bxfi_arena_inherit hndl 0 0).2.chunks) w.mem)
      ∧ (∀ x : Nat,
          (∀ a s d, .bxfi_ctx_static a s d ∈ visited Q (Q.bxfi_arena_inherit hndl 0 0).2.chunks →
            ¬ (Q.bxfi_denormalize_addr { addr := a, soname := d.drop s } ≤ x
                ∧ x < Q.bxfi_denormalize_addr { addr := a, soname := d.drop s } + s)) →
          (bxfi_context_inherit Q hndl w).2.2.mem x = w.mem x)
      ∧ (∀ (p sz : Nat) (e : Elt) (w1 : Participant), e.tag ≠ .BXFI_TAG_STATIC →
          (inherit_elt Q p e sz w1).1 = 0 ∧ (inherit_elt Q p e sz w1).2.2.mem = w1.mem) := by
  refine ⟨?_, ?_, ?_, ?_⟩
  · intro h
    rw [inherit_unbound Q hndl w h]
  · intro h
    rw [inherit_visited Q hndl w h]
  · intro x hx
    by_cases h : (Q.bxfi_arena_inherit hndl 0 0).1 < 0
    · rw [inherit_unbound Q hndl w h]
    · rw [inherit_visited Q hndl w h]
      exact transplants_outside Q _ _ _ (not_covers_of_outside Q _ x hx)
  · intro p sz e w1 he
    cases e with
    | bxfi_ctx_static a s d => exact absurd rfl he
    | bxfi_ctx_arena flags handle base => exact ⟨rfl, rfl⟩
    | bxfi_ctx_object namesz data => exact ⟨rfl, rfl⟩

/-- C14, an instance: `transferred_arena` inherited by a participant whose
memory is `host_mem` and in which module "x" is not loaded. Only the Static
element at position 0 was transplanted (target 20484..20485): the bytes at
20483 and at 20486 are what they were, although position 3 targets 20486. -/
theorem inherit_write_frame_witness :
    visited (example_platform 20480 false transferred_arena) transferred_arena.chunks
        = [.bxfi_ctx_static 4 2 [9, 8, 109, 0], .bxfi_ctx_arena 0 13 0]
      ∧ (bxfi_context_inherit (example_platform 20480 false transferred_arena) 3
          busy_participant).2.2.mem 20484 = 9
      ∧ (bxfi_context_inherit (example_platform 20480 false transferred_arena) 3
          busy_participant).2.2.mem 20483 = busy_participant.mem 20483
      ∧ (bxfi_context_inherit (example_platform 20480 false transferred_arena) 3
          busy_participant).2.2.mem 20486 = busy_participant.mem 20486 := by
  have h := inherit_write_frame (example_platform 20480 false transferred_arena) 3
    busy_participant
  have hv : visited (example_platform 20480 false transferred_arena)
      ((example_platform 20480 false transferred_arena).bxfi_arena_inherit 3 0 0).2.chunks
      = [.bxfi_ctx_static 4 2 [9, 8, 109, 0], .bxfi_ctx_arena 0 13 0] := by decide
  have hout : ∀ x : Nat, x = 20483 ∨ x = 20486 →
      ∀ a s d, Elt.bxfi_ctx_static a s d
          ∈ visited (example_platform 20480 false transferred_arena)
            ((example_platform 20480 false transferred_arena).bxfi_arena_inherit 3 0 0).2.chunks →
        ¬ ((example_platform 20480 false transferred_arena).bxfi_denormalize_addr
              { addr := a, soname := d.drop s } ≤ x
            ∧ x < (example_platform 20480 false transferred_arena).bxfi_denormalize_addr
              { addr := a, soname := d.drop s } + s) := by
    intro x hx a s d hmem
    rw [hv] at hmem
    simp only [List.mem_cons, Elt.bxfi_ctx_static.injEq, reduceCtorEq, List.not_mem_nil,
      or_false] at hmem
    rcases hmem with ⟨rfl, rfl, rfl⟩
    rcases hx with rfl | rfl <;> decide
  refine ⟨by decide, ?_, h.2.2.1 20483 (hout 20483 (Or.inl rfl)),
    h.2.2.1 20486 (hout 20486 (Or.inr rfl))⟩
  rw [h.2.1 (by decide)]
  decide

/-! ## The crossing protocol: what it leaves of the elements -/

theorem iter_find_lookup (es : List Elt) (p : Nat) (fctx : bxfi_find_ctx) :
    ((iter_chunks find_obj p es fctx).1,
      if (iter_chunks find_obj p es fctx).1 ≠ 0
        then some (iter_chunks find_obj p es fctx).2.2.result else none)
      = lookup_from p (es.map (is_named fctx.name)) := by
  induction es generalizing p with
  | nil => simp [iter_chunks, lookup_from]
  | cons e es ih =>
    by_cases h : is_named fctx.name e = true
    · have h1 := find_obj_hit p e e.chunk_size fctx h
      simp [iter_chunks, h1, lookup_from, h]
    · have h0 : is_named fctx.name e = false := by simpa using h
      have h1 := find_obj_miss p e e.chunk_size fctx h0
      have h2 := ih (p + 1)
      simp only [iter_chunks, h1, ne_eq, not_true_eq_false, if_false, List.map_cons, h0,
        lookup_from]
      exact h2

theorem getobject_eq_lookup (ctx : bxf_context) (n : List Nat) :
    bxf_context_getobject ctx n = lookup_from 0 (ctx.arena.chunks.map (is_named n)) := by
  have h := iter_find_lookup ctx.arena.chunks 0 { name := n, result := Ptr.null }
  rw [← h]
  unfold bxf_context_getobject bxf_arena_iter
  by_cases hf : (iter_chunks find_obj 0 ctx.arena.chunks { name := n, result := Ptr.null }).1 = 0
  · simp [hf]
  · simp [hf]

theorem is_named_capture (P : Platform) (m : Mem) (n : List Nat) (e : Elt) :
    is_named n (capture P m e) = is_named n e := by
  cases e <;> rfl

theorem tag_capture (P : Platform) (m : Mem) (e : Elt) : (capture P m e).tag = e.tag := by
  cases e <;> rfl

theorem capture_not_static (P : Platform) (m : Mem) (e : Elt)
    (h : e.tag ≠ .BXFI_TAG_STATIC) : capture P m e = e := by
  cases e with
  | bxfi_ctx_static a s d => exact absurd rfl h
  | bxfi_ctx_arena flags handle base => rfl
  | bxfi_ctx_object namesz data => rfl

theorem prepare_shape (P : Platform) (m : Mem) (ctx : bxf_context) :
    ∃ chunks : List Elt,
      (bxfi_context_prepare P m ctx).2.1 = { ctx with arena := { ctx.arena with chunks := chunks } }
        ∧ chunks.length = ctx.arena.chunks.length
        ∧ ∀ i : Nat, chunks[i]? = ctx.arena.chunks[i]?
            ∨ chunks[i]? = (ctx.arena.chunks[i]?).map (capture P m) := by
  by_cases hn : P.bxfi_arena_prepare ctx.arena.handle < 0
  · refine ⟨ctx.arena.chunks, ?_, rfl, fun i => Or.inl rfl⟩
    simp only [bxfi_context_prepare, hn, if_true]
  · rcases first_failure P ctx.arena.chunks with h | ⟨es1, e, es2, h1, h2, h3⟩
    · refine ⟨ctx.arena.chunks.map (capture P m), ?_, by simp, fun i => Or.inr (by simp)⟩
      rw [prepare_ok P m ctx (by omega) h]
    · refine ⟨es1.map (capture P m) ++ e :: es2, ?_, by simp [h1], ?_⟩
      · simp only [bxfi_context_prepare, hn, if_false, bxf_arena_iter, h1,
          iter_prepare_fail P m es1 es2 e 0 [ctx.arena.handle] h2 h3]
      · intro i
        rw [h1]
        by_cases hi : i < es1.length
        · right
          rw [List.getElem?_append_left (by simpa using hi), List.getElem?_append_left hi,
            List.getElem?_map]
        · left
          rw [List.getElem?_append_right (by simpa using hi),
            List.getElem?_append_right (by omega), List.length_map]

/-- C15. Element immutability across the crossing protocol. Whatever its
outcome, `bxfi_context_prepare` leaves the arena with its address, handle,
flags and room and with as many chunks as before; a Static element keeps its
position, address and size and every trailing byte from offset `size` on (the
module name), and its trailing data keeps its length, so that only the
payload bytes `[0, size)` can differ; an Arena or an Object element is left
exactly as it was. `bxfi_context_inherit` leaves the arena it bound exactly as
it was. Hence `bxf_context_getobject` gives the same result before prepare,
after prepare and, on the arena so transferred, after inherit. -/
theorem crossing_preserves_elements (P Q : Platform) (m : Mem) (ctx : bxf_context)
    (hndl : Nat) (w : Participant) :
    ((bxfi_context_prepare P m ctx).2.1.arena.self = ctx.arena.self
        ∧ (bxfi_context_prepare P m ctx).2.1.arena.handle = ctx.arena.handle
        ∧ (bxfi_context_prepare P m ctx).2.1.arena.flags = ctx.arena.flags
        ∧ (bxfi_context_prepare P m ctx).2.1.arena.avail = ctx.arena.avail
        ∧ (bxfi_context_prepare P m ctx).2.1.arena.chunks.length = ctx.arena.chunks.length)
      ∧ (∀ (i a s : Nat) (d : List Nat),
          ctx.arena.chunks[i]? = some (.bxfi_ctx_static a s d) →
          ∃ d1, (bxfi_context_prepare P m ctx).2.1.arena.chunks[i]?
              = some (.bxfi_ctx_static a s d1)
            ∧ d1.drop s = d.drop s
            ∧ (s ≤ d.length → d1.length = d.length))
      ∧ (∀ (i : Nat) (e : Elt), ctx.arena.chunks[i]? = some e → e.tag ≠ .BXFI_TAG_STATIC →
          (bxfi_context_prepare P m ctx).2.1.arena.chunks[i]? = some e)
      ∧ (bxfi_context_inherit Q hndl w).2.1 = (Q.bxfi_arena_inherit hndl 0 0).2
      ∧ (∀ n : List Nat,
          bxf_context_getobject (bxfi_context_prepare P m ctx).2.1 n
            = bxf_context_getobject ctx n)
      ∧ ((Q.bxfi_arena_inherit hndl 0 0).2 = (bxfi_context_prepare P m ctx).2.1.arena →
          ∀ n : List Nat,
            bxf_context_getobject { arena := (bxfi_context_inherit Q hndl w).2.1 } n
              = bxf_context_getobject ctx n) := by
  rcases prepare_shape P m ctx with ⟨chunks1, hshape, hlen, helt⟩
  have hinh : (bxfi_context_inherit Q hndl w).2.1 = (Q.bxfi_arena_inherit hndl 0 0).2 := by
    by_cases h : (Q.bxfi_arena_inherit hndl 0 0).1 < 0
    · rw [inherit_unbound Q hndl w h]
    · rw [inherit_visited Q hndl w h]
  have hget : ∀ n : List Nat,
      bxf_context_getobject (bxfi_context_prepare P m ctx).2.1 n
        = bxf_context_getobject ctx n := by
    intro n
    rw [getobject_eq_lookup, getobject_eq_lookup, hshape]
    congr 1
    apply List.ext_getElem?
    intro i
    simp only [List.getElem?_map]
    rcases helt i with h | h
    · rw [h]
    · rw [h]
      cases ctx.arena.chunks[i]? with
      | none => rfl
      | some e => simp [is_named_capture]
  refine ⟨?_, ?_, ?_, hinh, hget, ?_⟩
  · rw [hshape]
    exact ⟨rfl, rfl, rfl, rfl, hlen⟩
  · intro i a s d hi
    rw [hshape]
    rcases helt i with h | h
    · exact ⟨d, by rw [← hi]; exact h, rfl, fun _ => rfl⟩
    · refine ⟨mem_read m (P.bxfi_denormalize_addr { addr := a, soname := d.drop s }) s
        ++ d.drop s, ?_, ?_, ?_⟩
      · show chunks1[i]? = _
        rw [h, hi]
        rfl
      · rw [List.drop_left' (length_mem_read _ _ _)]
      · intro hs
        simp only [List.length_append, length_mem_read, List.length_drop]
        omega
  · intro i e hi he
    rw [hshape]
    show chunks1[i]? = _
    rcases helt i with h | h
    · rw [h, hi]
    · rw [h, hi]
      simp only [Option.map_some', capture_not_static P m e he]
  · intro hsame n
    rw [hinh, hsame]
    exact hget n

/-- C15, an instance: `host_context` prepared while module "x" is not loaded
(the prepare fails at position 2) and the arena it leaves inherited by a
participant; the Static element at position 0 has changed in its two payload
bytes only, the Arena element at position 1 is as it was, and neither prepare
nor inherit changes what the lookup of a name gives. -/
theorem crossing_preserves_elements_witness :
    host_context.arena.chunks[0]? = some (.bxfi_ctx_static 4 2 [0, 0, 109, 0])
      ∧ half_prepared_arena.chunks[0]? = some (.bxfi_ctx_static 4 2 [42, 43, 109, 0])
      ∧ half_prepared_arena.chunks[1]? = some (.bxfi_ctx_arena 0 11 0)
      ∧ (bxfi_context_inherit (example_platform 20480 false half_prepared_arena) 3
          blank_participant).2.1 = half_prepared_arena
      ∧ bxf_context_getobject
          (bxfi_context_prepare (example_platform 4096 false fresh_context.arena) host_mem
            mixed_context).2.1 [107]
        = bxf_context_getobject mixed_context [107] := by
  have h := crossing_preserves_elements (example_platform 4096 false fresh_context.arena)
    (example_platform 20480 false half_prepared_arena) host_mem host_context 3
    blank_participant
  have h2 := crossing_preserves_elements (example_platform 4096 false fresh_context.arena)
    (example_platform 20480 false half_prepared_arena) host_mem mixed_context 3
    blank_participant
  exact ⟨rfl, by decide, h.2.2.1 1 (.bxfi_ctx_arena 0 11 0) rfl (by decide), h.2.2.2.1,
    h2.2.2.2.2.1 [107]⟩

/-- C16, as stated, fails (by design of `inherit_elt`). The host adds
`identity_arena`, whose arena object lies at address 12288 of the host and
which is flagged identity; the participant binds the transferred arena at
address 8192 in step 1. For the Arena element, `bxfi_arena_inherit` is called
with handle 14, flags 3 and the arena pointer 12288, the stored
back-reference: it is not the enclosing arena bound in step 1. -/
theorem identity_binding_counterexample :
    (bxf_context_addarena fresh_context identity_arena).2.arena.chunks
        = identity_transfer.chunks
      ∧ ((example_platform 20480 false identity_transfer).bxfi_arena_inherit 3 0 0).2.self
        = 8192
      ∧ (bxfi_context_inherit (example_platform 20480 false identity_transfer) 3
          blank_participant).2.2.bound = [(3, 0, 0), (14, 3, 12288)]
      ∧ ¬ (∀ c ∈ ((bxfi_context_inherit (example_platform 20480 false identity_transfer) 3
              blank_participant).2.2.bound).drop 1,
            c.2.2 ≠ 0 →
            c.2.2 = ((example_platform 20480 false identity_transfer).bxfi_arena_inherit
              3 0 0).2.self) := by
  decide

/-- C16, amended. When the handle binds, the calls of `bxfi_arena_inherit`
that `bxfi_context_inherit` makes are the one of step 1 (the handle, flags 0,
a null arena pointer) followed, for every Arena element gone through, in
order, by one call with the nested handle of the element, its flags and, as
arena pointer, its stored back-reference; the visit of an Arena element does
nothing else. For an element recorded by `bxf_context_addarena` that pointer
is the address the sub-arena had in the host when it was flagged identity,
and null when it was not. -/
theorem inherit_binds_stored_reference (Q : Platform) (hndl : Nat) (w : Participant)
    (h : ¬ (Q.bxfi_arena_inherit hndl 0 0).1 < 0) :
    (bxfi_context_inherit Q hndl w).2.2.bound
        = w.bound ++ (hndl, 0, 0)
            :: nested_binds (visited Q (Q.bxfi_arena_inherit hndl 0 0).2.chunks)
      ∧ (∀ (p sz flags handle base : Nat) (w1 : Participant),
          inherit_elt Q p (.bxfi_ctx_arena flags handle base) sz w1
            = (0, .bxfi_ctx_arena flags handle base,
                { mem := w1.mem, bound := w1.bound ++ [(handle, flags, base)] }))
      ∧ (∀ (ctx : bxf_context) (a : bxf_arena_s),
          ¬ (bxf_arena_alloc ctx.arena sizeof_arena).1 < 0 →
          nested_binds ((bxf_context_addarena ctx a).2.arena.chunks.drop ctx.arena.chunks.length)
            = [(a.handle, a.flags,
                if a.flags &&& BXF_ARENA_IDENTITY ≠ 0 then a.self else 0)]) := by
  refine ⟨?_, ?_, ?_⟩
  · rw [inherit_visited Q hndl w h]
    simp
  · intro p sz flags handle base w1
    rfl
  · intro ctx a ha
    rw [addarena_ok ctx a ha]
    simp [nested_binds]

/-- C16 amended, an instance: the inherit of `identity_transfer` calls
`bxfi_arena_inherit(3, 0, NULL)` and then, for the Arena element,
`bxfi_arena_inherit(14, 3, 12288)`. -/
theorem inherit_binds_stored_reference_witness :
    ¬ ((example_platform 20480 false identity_transfer).bxfi_arena_inherit 3 0 0).1 < 0
      ∧ (bxfi_context_inherit (example_platform 20480 false identity_transfer) 3
          blank_participant).2.2.bound = [(3, 0, 0), (14, 3, 12288)] := by
  have h := inherit_binds_stored_reference (example_platform 20480 false identity_transfer) 3
    blank_participant (by decide)
  refine ⟨by decide, ?_⟩
  rw [h.1]
  decide

/-! ## The layout of the trailing data -/

theorem addobject_ok (ctx : bxf_context) (name bytes : List Nat)
    (ha : ¬ (bxf_arena_alloc ctx.arena
      (sizeof_object + (strlen name + 1) + bytes.length)).1 < 0) :
    bxf_context_addobject ctx name bytes
      = (0, { ctx with arena :=
          { ctx.arena with
            avail := ctx.arena.avail - (sizeof_object + (strlen name + 1) + bytes.length),
            chunks := ctx.arena.chunks
              ++ [.bxfi_ctx_object (strlen name + 1) (cstr name ++ [0] ++ bytes)] } }) := by
  have hf := alloc_ok _ _ ha
  unfold bxf_context_addobject
  have hp : ¬ ((ctx.arena.chunks.length : Int) < 0) := by omega
  simp only [hf, hp, if_false, arena_fill, object_data_eq]

theorem strlen_terminated (s t : List Nat) : strlen (cstr s ++ 0 :: t) = strlen s := by
  rw [← length_cstr, cstr_terminated, length_cstr]

/-- The stored descriptor below the wrap. Let the request
`sizeof (*elt) + size + strlen(name) + 1` not exceed `SIZE_MAX`, and let
`bxf_context_addstatic(ctx0, ptr, size)` succeed, `d` being the descriptor the
normalizer gave. Then the allocation made is that many bytes, no write falls
outside it, and the element appended fills it exactly: it holds the offset
`d.addr`, the size and `size + strlen(name) + 1` trailing bytes, the name of
the module with its terminator lying at the trailing offsets
`[size, size + strlen(name) + 1)`. For every content `payload` of its `size`
payload bytes (as the allocator delivered them, or as a prepare captured them)
and on every platform, `prepare_elt` and `inherit_elt` hand to the
denormalizer exactly the descriptor made of `d.addr` and of that name; the
capture of `prepare_elt` replaces the payload bytes `[0, size)` and leaves the
name in place, so that the same holds again after it. -/
theorem stored_descriptor_preserved (P : Platform) (ctx0 ctx1 : bxf_context) (ptr size : Nat)
    (rcn : Int) (d : bxfi_addr)
    (hnorm : P.bxfi_normalize_addr ptr = (rcn, d))
    (hfit : sizeof_static + size + strlen d.soname + 1 ≤ SIZE_MAX)
    (hadd : bxf_context_addstatic P ctx0 ptr size = (0, ctx1)) :
    ctx1.arena.chunks
        = ctx0.arena.chunks
          ++ [.bxfi_ctx_static d.addr size (List.replicate size 0 ++ (cstr d.soname ++ [0]))]
      ∧ static_request size d.soname = sizeof_static + size + strlen d.soname + 1
      ∧ ctx1.arena.avail + static_request size d.soname = ctx0.arena.avail
      ∧ ctx1.arena.overrun = ctx0.arena.overrun
      ∧ (Elt.bxfi_ctx_static d.addr size
            (List.replicate size 0 ++ (cstr d.soname ++ [0]))).chunk_size
          = static_request size d.soname
      ∧ cstr (cstr d.soname ++ [0]) = cstr d.soname
      ∧ (∀ payload : List Nat, payload.length = size →
          (payload ++ (cstr d.soname ++ [0])).drop size = cstr d.soname ++ [0]
          ∧ (∀ (P1 : Platform) (m : Mem) (p sz : Nat) (primed : List Nat),
              prepare_elt P1 m p (.bxfi_ctx_static d.addr size
                  (payload ++ (cstr d.soname ++ [0]))) sz primed
                = if P1.bxfi_denormalize_addr
                      { addr := d.addr, soname := cstr d.soname ++ [0] } = 0
                  then (-EINVAL,
                    .bxfi_ctx_static d.addr size (payload ++ (cstr d.soname ++ [0])), primed)
                  else (0,
                    .bxfi_ctx_static d.addr size
                      (mem_read m (P1.bxfi_denormalize_addr
                          { addr := d.addr, soname := cstr d.soname ++ [0] }) size
                        ++ (cstr d.soname ++ [0])), primed))
          ∧ (∀ (Q : Platform) (p sz : Nat) (w : Participant),
              inherit_elt Q p (.bxfi_ctx_static d.addr size
                  (payload ++ (cstr d.soname ++ [0]))) sz w
                = if Q.bxfi_denormalize_addr
                      { addr := d.addr, soname := cstr d.soname ++ [0] } = 0
                  then (-EINVAL,
                    .bxfi_ctx_static d.addr size (payload ++ (cstr d.soname ++ [0])), w)
                  else (0,
                    .bxfi_ctx_static d.addr size (payload ++ (cstr d.soname ++ [0])),
                    { mem := mem_write w.mem (Q.bxfi_denormalize_addr
                          { addr := d.addr, soname := cstr d.soname ++ [0] }) payload,
                      bound := w.bound }))) := by
  have hc1 := addstatic_chunks P ctx0 ctx1 ptr size hadd
  have helt : (Call.addstatic ptr size).elt P
      = .bxfi_ctx_static d.addr size (List.replicate size 0 ++ (cstr d.soname ++ [0])) := by
    simp only [Call.elt, hnorm]
  rw [helt] at hc1
  have hreq := static_request_exact size d.soname hfit
  have hn : ¬ (P.bxfi_normalize_addr ptr).1 < 0 := by
    intro hneg
    rw [addstatic_normalize_fail P ctx0 ptr size hneg] at hadd
    have h1 := congrArg Prod.fst hadd
    simp only at h1
    omega
  have ha : ¬ (bxf_arena_alloc ctx0.arena
      (static_request size (P.bxfi_normalize_addr ptr).2.soname)).1 < 0 := by
    intro hneg
    rw [addstatic_request_fail P ctx0 ptr size hn hneg] at hadd
    have h1 := congrArg Prod.fst hadd
    have h2 : (-ENOMEM : Int) ≠ 0 := by decide
    exact absurd h1 h2
  have hroom : static_request size d.soname ≤ ctx0.arena.avail := by
    rw [hnorm] at ha
    rcases alloc_nonneg_or_enomem ctx0.arena (static_request size d.soname) with ⟨h1, _⟩ | ⟨_, h1⟩
    · exact h1
    · rw [h1] at ha
      exact absurd (by decide : (-ENOMEM : Int) < 0) ha
  have hres := addstatic_eq P ctx0 ptr size hn ha
  rw [hadd, hnorm] at hres
  have hctx := congrArg Prod.snd hres
  simp only at hctx
  refine ⟨hc1, hreq, ?_, ?_, ?_, ?_, ?_⟩
  · rw [hctx]
    show ctx0.arena.avail - static_request size d.soname + static_request size d.soname = _
    omega
  · rw [hctx]
    show (if sizeof_static + size + strlen d.soname + 1 ≤ SIZE_MAX then ctx0.arena.overrun
      else true) = _
    simp only [hfit, if_true]
  · rw [hreq]
    simp only [Elt.chunk_size, List.length_append, List.length_replicate, length_cstr,
      List.length_singleton]
    omega
  · exact cstr_terminated d.soname []
  · intro payload hlen
    have hdrop : (payload ++ (cstr d.soname ++ [0])).drop size = cstr d.soname ++ [0] :=
      List.drop_left' hlen
    have htake : (payload ++ (cstr d.soname ++ [0])).take size = payload :=
      List.take_left' hlen
    refine ⟨hdrop, ?_, ?_⟩
    · intro P1 m p sz primed
      simp only [prepare_elt, hdrop, memcpy_at_zero, length_mem_read]
    · intro Q p sz w
      simp only [inherit_elt, hdrop, htake]

/-- C17 (defect of the code). `bxf_context_addstatic(ctx, &x, size)` on a fresh
context with `size = SIZE_MAX - 24` (that is `(size_t) -25`), `x` lying at
offset 4 of module "m": the request 24 + size + 1 + 1, computed in `size_t`,
wraps to 1; the allocation of one byte succeeds and the call returns 0 with
one Static element appended, although that chunk can hold neither the 24
bytes of the header nor the name with its terminator, which `strcpy` writes to
`data[size]`: the writes fall outside the allocation. -/
theorem addstatic_request_wraps :
    (example_platform 4096 false fresh_context.arena).bxfi_normalize_addr 4100
        = (0, { addr := 4, soname := [109, 0] })
      ∧ sizeof_static + 18446744073709551591 + strlen [109, 0] + 1 = SIZE_MAX + 2
      ∧ static_request 18446744073709551591 [109, 0] = 1
      ∧ (bxf_context_addstatic (example_platform 4096 false fresh_context.arena) fresh_context
          4100 18446744073709551591).1 = 0
      ∧ (bxf_context_addstatic (example_platform 4096 false fresh_context.arena) fresh_context
          4100 18446744073709551591).2.arena.avail = fresh_context.arena.avail - 1
      ∧ ((bxf_context_addstatic (example_platform 4096 false fresh_context.arena) fresh_context
          4100 18446744073709551591).2.arena.chunks.map Elt.fields)
        = [(.BXFI_TAG_STATIC, [4, 18446744073709551591])]
      ∧ (bxf_context_addstatic (example_platform 4096 false fresh_context.arena) fresh_context
          4100 18446744073709551591).2.arena.overrun = true := by
  have hn : ¬ ((example_platform 4096 false fresh_context.arena).bxfi_normalize_addr 4100).1 < 0 := by
    decide
  have hreq : static_request 18446744073709551591 [109, 0] = 1 := by decide
  have hnorm : (example_platform 4096 false fresh_context.arena).bxfi_normalize_addr 4100
      = (0, { addr := 4, soname := [109, 0] }) := by decide
  have ha : ¬ (bxf_arena_alloc fresh_context.arena
      (static_request 18446744073709551591
        ((example_platform 4096 false fresh_context.arena).bxfi_normalize_addr 4100).2.soname)).1
        < 0 := by
    rw [hnorm, hreq]
    decide
  rw [addstatic_eq _ fresh_context 4100 18446744073709551591 hn ha]
  refine ⟨hnorm, by decide, hreq, rfl, ?_, ?_, ?_⟩
  · show fresh_context.arena.avail - static_request 18446744073709551591
      ((example_platform 4096 false fresh_context.arena).bxfi_normalize_addr 4100).2.soname = _
    rw [hnorm, hreq]
  · show (fresh_context.arena.chunks ++ [(Call.addstatic 4100 18446744073709551591).elt
      (example_platform 4096 false fresh_context.arena)]).map Elt.fields = _
    have helt : (Call.addstatic 4100 18446744073709551591).elt
          (example_platform 4096 false fresh_context.arena)
        = .bxfi_ctx_static 4 18446744073709551591
            (List.replicate 18446744073709551591 0 ++ (cstr [109, 0] ++ [0])) := by
      simp only [Call.elt, hnorm]
    rw [helt]
    simp only [fresh_context, List.nil_append, List.map_cons, List.map_nil, Elt.fields]
  · show (if sizeof_static + 18446744073709551591
        + strlen ((example_platform 4096 false fresh_context.arena).bxfi_normalize_addr
            4100).2.soname + 1 ≤ SIZE_MAX
      then fresh_context.arena.overrun else true) = true
    rw [hnorm]
    decide

/-- C18, as stated, fails (by design of the elements: no field stores the
length of the module name or the size of the payload). Two Objects added
under the name "k" with payloads of one and of two bytes store the same
fields (tag, `namesz = 2`) and have trailing data of 3 and of 4 bytes; two
Static elements for four bytes at offset 4100 of a module named "m" and of a
module named "lib" store the same fields (tag, address, size) and have
trailing data of 6 and of 8 bytes. -/
theorem trailing_length_counterexample :
    (bxf_context_addobject fresh_context [107] [1]).2.arena.chunks
        = [.bxfi_ctx_object 2 [107, 0, 1]]
      ∧ (bxf_context_addobject fresh_context [107] [1, 2]).2.arena.chunks
        = [.bxfi_ctx_object 2 [107, 0, 1, 2]]
      ∧ (Elt.bxfi_ctx_object 2 [107, 0, 1]).fields = (Elt.bxfi_ctx_object 2 [107, 0, 1, 2]).fields
      ∧ (Elt.bxfi_ctx_object 2 [107, 0, 1]).trailing.length
        ≠ (Elt.bxfi_ctx_object 2 [107, 0, 1, 2]).trailing.length
      ∧ (bxf_context_addstatic (named_platform [109, 0]) fresh_context 4100 4).2.arena.chunks
        = [.bxfi_ctx_static 4100 4 [0, 0, 0, 0, 109, 0]]
      ∧ (bxf_context_addstatic (named_platform [108, 105, 98, 0]) fresh_context 4100
          4).2.arena.chunks
        = [.bxfi_ctx_static 4100 4 [0, 0, 0, 0, 108, 105, 98, 0]]
      ∧ (Elt.bxfi_ctx_static 4100 4 [0, 0, 0, 0, 109, 0]).fields
        = (Elt.bxfi_ctx_static 4100 4 [0, 0, 0, 0, 108, 105, 98, 0]).fields
      ∧ (Elt.bxfi_ctx_static 4100 4 [0, 0, 0, 0, 109, 0]).trailing.length
        ≠ (Elt.bxfi_ctx_static 4100 4 [0, 0, 0, 0, 108, 105, 98, 0]).trailing.length := by
  decide

/-- C18, amended. For an element appended by `bxf_context_addstatic` the
trailing data is the payload, `size` bytes, followed from offset `size` on by
the module name with its terminator: its length is `size + strlen(name) + 1`,
which the stored size and a scan of the name up to its terminator give. For an
element appended by `bxf_context_addobject` it is the name with its
terminator, `namesz` bytes, followed from offset `namesz` on by the payload:
its length is `namesz` plus the size of the payload. In both cases the stored
field gives the offset of the second part and not its length; two elements
with equal stored fields whose second parts have equal lengths have trailing
data of equal length. -/
theorem trailing_layout (P : Platform) (ctx : bxf_context) :
    (∀ ptr size : Nat, ¬ (P.bxfi_normalize_addr ptr).1 < 0 →
        ¬ (bxf_arena_alloc ctx.arena
          (sizeof_static + size + strlen (P.bxfi_normalize_addr ptr).2.soname + 1)).1 < 0 →
        ∃ data : List Nat,
          (bxf_context_addstatic P ctx ptr size).2.arena.chunks
              = ctx.arena.chunks
                ++ [.bxfi_ctx_static (P.bxfi_normalize_addr ptr).2.addr size data]
            ∧ (data.take size).length = size
            ∧ data.drop size = cstr (P.bxfi_normalize_addr ptr).2.soname ++ [0]
            ∧ data.length = size + strlen (P.bxfi_normalize_addr ptr).2.soname + 1
            ∧ data.length = size + strlen (data.drop size) + 1)
      ∧ (∀ name bytes : List Nat,
        ¬ (bxf_arena_alloc ctx.arena (sizeof_object + (strlen name + 1) + bytes.length)).1 < 0 →
        ∃ data : List Nat,
          (bxf_context_addobject ctx name bytes).2.arena.chunks
              = ctx.arena.chunks ++ [.bxfi_ctx_object (strlen name + 1) data]
            ∧ data.take (strlen name + 1) = cstr name ++ [0]
            ∧ data.drop (strlen name + 1) = bytes
            ∧ data.length = strlen name + 1 + bytes.length)
      ∧ (∀ e1 e2 : Elt, e1.fields = e2.fields →
          e1.offset ≤ e1.trailing.length → e2.offset ≤ e2.trailing.length →
          (e1.trailing.drop e1.offset).length = (e2.trailing.drop e2.offset).length →
          e1.trailing.length = e2.trailing.length) := by
  refine ⟨?_, ?_, ?_⟩
  · intro ptr size hn ha
    refine ⟨List.replicate size 0 ++ (cstr (P.bxfi_normalize_addr ptr).2.soname ++ [0]),
      ?_, ?_, ?_, ?_, ?_⟩
    · rw [addstatic_ok P ctx ptr size hn ha]
      rfl
    · simp
    · exact List.drop_left' (by simp)
    · simp only [List.length_append, List.length_replicate, length_cstr, List.length_singleton]
      omega
    · rw [List.drop_left' (by simp)]
      have h1 : strlen (cstr (P.bxfi_normalize_addr ptr).2.soname ++ [0])
          = strlen (P.bxfi_normalize_addr ptr).2.soname :=
        strlen_terminated _ []
      rw [h1]
      simp only [List.length_append, List.length_replicate, length_cstr, List.length_singleton]
      omega
  · intro name bytes ha
    have hlen : (cstr name ++ [0]).length = strlen name + 1 := by simp [length_cstr]
    refine ⟨cstr name ++ [0] ++ bytes, ?_, ?_, ?_, ?_⟩
    · rw [addobject_ok ctx name bytes ha]
    · exact List.take_left' hlen
    · exact List.drop_left' hlen
    · simp only [List.length_append, hlen]
  · intro e1 e2 hf h1 h2 hrest
    have hoff : e1.offset = e2.offset := by
      cases e1 <;> cases e2 <;> simp_all [Elt.fields, Elt.offset]
    simp only [List.length_drop] at hrest
    omega

/-- C18 amended, an instance: the Static element for four bytes at address
4100 of module "m" has 6 trailing bytes (4 + 1 + 1), the name "m" with its
terminator lying at offset 4; the Object "k" with a payload of two bytes has
4 trailing bytes (2 + 2), the payload lying at offset 2. -/
theorem trailing_layout_witness :
    (bxf_context_addstatic (example_platform 4096 false fresh_context.arena) fresh_context
        4100 4).2.arena.chunks = [.bxfi_ctx_static 4 4 [0, 0, 0, 0, 109, 0]]
      ∧ (bxf_context_addobject fresh_context [107] [1, 2]).2.arena.chunks
        = [.bxfi_ctx_object 2 [107, 0, 1, 2]]
      ∧ (Elt.bxfi_ctx_object 2 [107, 0, 1, 2]).trailing.length
        = (Elt.bxfi_ctx_object 2 [107, 0, 5, 6]).trailing.length := by
  have h := trailing_layout (example_platform 4096 false fresh_context.arena) fresh_context
  exact ⟨by decide, by decide,
    h.2.2 (.bxfi_ctx_object 2 [107, 0, 1, 2]) (.bxfi_ctx_object 2 [107, 0, 5, 6]) rfl
      (by decide) (by decide) rfl⟩

end BoxFort
